import Mathlib

/-! LPD8806VD: colour codec and frame transmitter

A shallow embedding of `LPD8806VD.cpp` / `LPD8806VD.h`.

* Machine integers are natural numbers; every narrowing conversion of the
  C++ source (`uint8_t`, `uint16_t`, `uint32_t`) is an explicit `% 2^w`.
* The pixel buffer is caller owned: `pixels` is `none` for a null pointer and
  `some buf` for a buffer of `buf.length` bytes.  A read or write outside the
  buffer, or through the null pointer, is undefined behaviour in the source
  and is `none` here.
* Transmission is a list of `Event`s, one per call of a transmission
  primitive, in program order.
-/

/-- Compilation target.  The source compiles for the AVR parts named in its
`#if defined(__AVR_ATmega168__) ...` tests and, through the `#else` branches,
for any other board.  The targets differ in the width of `int`. -/
inductive Target where
  | avr
  | generic
  deriving DecidableEq, Repr

namespace Target

/-- Result of an `int`-rank arithmetic expression over `uint16_t` and `uint8_t`
operands.  On AVR `int` has 16 bits, so a `uint16_t` operand makes the
expression `unsigned int` and it wraps modulo 2^16; elsewhere the operands are
promoted to a 32-bit `int`, which none of the expressions of this driver can
overflow (the largest is 65535 * 255). -/
def wrapInt : Target → Nat → Nat
  | avr, x => x % 65536
  | generic, x => x

/-- Largest size of an object (`SIZE_MAX`): no buffer is longer. -/
def sizeMax : Target → Nat
  | avr => 65535
  | generic => 4294967295

end Target

/-- One call of a transmission or pin primitive. -/
inductive Event where
  | spiBegin
  | spiSetBitOrderMSBFirst
  | spiSetDataMode0
  | spiSetClockDiv4
  | spiEnd
  | spiTransfer (b : Nat)
  | pinModeOutput (pin : Nat)
  | bitBangByte (b : Nat)
  deriving DecidableEq, Repr

/-- The data byte an event puts on the wire, if it is a byte transmission. -/
def Event.wireByte : Event → Option Nat
  | spiTransfer b => some b
  | bitBangByte b => some b
  | _ => none

/-- The private fields of `class LPD8806VD` that the core uses.  The port
register pointers and bit masks only select how `sendBitBangByte` toggles the
two pins and are left out. -/
structure LPD8806VD where
  colorDepth : Nat
  numLEDs : Nat
  latchBytes : Nat
  pixels : Option (List Nat)
  clkpin : Nat
  datapin : Nat
  hardwareSPI : Bool
  begun : Bool
  deriving DecidableEq, Repr

namespace LPD8806VD

/-! ## Colour codec -/

def getRed8 (c8 : Nat) : Nat := ((c8 &&& 0b11100000) >>> 1) % 256

def getGreen8 (c8 : Nat) : Nat := ((c8 &&& 0b00011100) <<< 2) % 256

def getBlue8 (c8 : Nat) : Nat := ((c8 &&& 0b00000011) <<< 5) % 256

def getRed16 (c16 : Nat) : Nat := ((c16 &&& 0b0111110000000000) >>> (8 + 0)) % 256

def getGreen16 (c16 : Nat) : Nat := ((c16 &&& 0b0000001111100000) >>> (2 + 1)) % 256

def getBlue16 (c16 : Nat) : Nat := ((c16 &&& 0b0000000000011111) <<< (3 - 1)) % 256

/-- `Color8To16(uint8_t c8)`: C8 = rrrgggbb to C16 = 0rrr00gg g00bb000. -/
def Color8To16 (c8 : Nat) : Nat :=
  let r := (c8 &&& 0b11100000) % 256
  let g := ((c8 &&& 0b00011100) <<< 3) % 256
  let b := ((c8 &&& 0b00000011) <<< 6) % 256
  (((r <<< (8 - 1)) ||| (g <<< 2)) ||| (b >>> 3)) % 65536

/-- `Color(uint8_t r, uint8_t g, uint8_t b)`: pack components for the current
colour depth.  The result is a `uint32_t`. -/
def Color (s : LPD8806VD) (r g b : Nat) : Nat :=
  match s.colorDepth with
  | 1 => 0x000000ff &&&
      (((r &&& 0b11100000) ||| ((g &&& 0b11100000) >>> 3)) ||| ((b &&& 0b11000000) >>> 6))
  | 2 => 0x0000ffff &&&
      ((((r &&& 0b11111000) <<< 7) ||| ((g &&& 0b11111000) <<< 2)) |||
        ((b &&& 0b11111000) >>> 3))
  | 3 => 0x00ffffff &&& (((g <<< (16 - 1)) ||| (r <<< (8 - 1))) ||| (b >>> 1))
  | _ => 0

/-- `Color(uint32_t color)`: the three arguments are narrowed to `uint8_t`. -/
def ColorPacked (s : LPD8806VD) (color : Nat) : Nat :=
  Color s ((color >>> 16) % 256) ((color >>> 8) % 256) (color % 256)

/-! ## Configuration -/

def getColorDepth (s : LPD8806VD) : Nat := s.colorDepth

def numPixels (s : LPD8806VD) : Nat := s.numLEDs

def setColorDepth (s : LPD8806VD) (depth : Nat) : LPD8806VD :=
  match depth with
  | 1 => { s with colorDepth := depth }
  | 2 => { s with colorDepth := depth }
  | 3 => { s with colorDepth := depth }
  | 8 => { s with colorDepth := 1 }
  | 15 => { s with colorDepth := 2 }
  | 16 => { s with colorDepth := 2 }
  | 21 => { s with colorDepth := 3 }
  | 24 => { s with colorDepth := 3 }
  | _ => { s with colorDepth := 0 }

def setBufferPointer (s : LPD8806VD) (buf : Option (List Nat)) : LPD8806VD :=
  { s with pixels := buf }

/-! ## Buffer access -/

/-- `memset(p, c, len)` on a buffer: `none` when `len` bytes do not fit. -/
def memset (buf : List Nat) (c len : Nat) : Option (List Nat) :=
  if len ≤ buf.length then some (List.replicate len (c % 256) ++ buf.drop len) else none

/-- Read of `pixels[i]`. -/
def rd (s : LPD8806VD) (i : Nat) : Option Nat :=
  match s.pixels with
  | none => none
  | some buf => buf[i]?

/-- Store of a value, narrowed to `uint8_t`, to `pixels[i]`. -/
def wr (s : LPD8806VD) (i v : Nat) : Option LPD8806VD :=
  match s.pixels with
  | none => none
  | some buf => if i < buf.length then some { s with pixels := some (buf.set i (v % 256)) } else none

/-- `clear()`. -/
def clear (t : Target) (s : LPD8806VD) : Option LPD8806VD :=
  match s.pixels with
  | none => some s
  | some buf =>
    match memset buf 0 (t.wrapInt (s.numLEDs * s.colorDepth)) with
    | none => none
    | some buf1 => some { s with pixels := some buf1 }

/-- `updateLength(uint16_t n)`.  `latchBytes` is a `uint8_t` field. -/
def updateLength (t : Target) (s : LPD8806VD) (n : Nat) : Option LPD8806VD :=
  let s1 := { s with latchBytes := (t.wrapInt (n + 31) / 32) % 256 }
  let s2 := { s1 with numLEDs := n }
  clear t s2

/-- `setPixelColor(uint16_t n, uint32_t color)`. -/
def setPixelColor (t : Target) (s : LPD8806VD) (n color : Nat) : Option LPD8806VD :=
  let p := t.wrapInt (n * s.colorDepth)
  match s.colorDepth with
  | 1 => wr s p color
  | 2 => do
    let s1 ← wr s p (color >>> 8)
    wr s1 (p + 1) color
  | 3 => do
    let s1 ← wr s p (color >>> 16)
    let s2 ← wr s1 (p + 1) (color >>> 8)
    wr s2 (p + 2) color
  | _ => some s

/-- `setPixelColor(uint16_t n, uint8_t r, uint8_t g, uint8_t b)`. -/
def setPixelColorRGB (t : Target) (s : LPD8806VD) (n r g b : Nat) : Option LPD8806VD :=
  setPixelColor t s n (Color s r g b)

/-- The `switch (colorDepth)` that `show()` and `getPixelColor()` both run on
the pixel at byte offset `ptr`: the components `(g, r, b)`.  With no matching
case the source goes on with uninitialised `g`, `r`, `b`, which is undefined
behaviour: `none`. -/
def readGRB (s : LPD8806VD) (ptr : Nat) : Option (Nat × Nat × Nat) :=
  match s.colorDepth with
  | 1 => do
    let c ← rd s ptr
    pure (getGreen8 c, getRed8 c, getBlue8 c)
  | 2 => do
    let hi ← rd s ptr
    let lo ← rd s (ptr + 1)
    let color := (((hi <<< 8) % 65536) ||| lo) % 65536
    pure (getGreen16 color, getRed16 color, getBlue16 color)
  | 3 => do
    let g ← rd s ptr
    let r ← rd s (ptr + 1)
    let b ← rd s (ptr + 2)
    pure (g, r, b)
  | _ => none

/-- `getPixelColor(uint16_t n)`. -/
def getPixelColor (t : Target) (s : LPD8806VD) (n : Nat) : Option Nat :=
  if n < s.numLEDs then do
    let (g, r, b) ← readGRB s (t.wrapInt (n * s.colorDepth))
    let g := (g <<< 1) % 256
    let r := (r <<< 1) % 256
    let b := (b <<< 1) % 256
    pure (Color s r g b)
  else some 0

/-! ## Frame transmitter -/

/-- One byte through the primitive of the selected mode: `SPI.transfer` (or the
`SPDR` store) in hardware mode, `sendBitBangByte` otherwise. -/
def sendByte (s : LPD8806VD) (b : Nat) : Event :=
  if s.hardwareSPI then Event.spiTransfer b else Event.bitBangByte b

/-- The pixel loop of `show()`: `i` pixels left, `ptr` the byte offset of the
next one. -/
def showPixels (s : LPD8806VD) : Nat → Nat → Option (List Event)
  | 0, _ => some []
  | i + 1, ptr => do
    let (g, r, b) ← readGRB s ptr
    let g := (g ||| 0x80) % 256
    let r := (r ||| 0x80) % 256
    let b := (b ||| 0x80) % 256
    let rest ← showPixels s i (ptr + s.colorDepth)
    pure (sendByte s g :: sendByte s r :: sendByte s b :: rest)

/-- The latch loop that ends `show()`: `i = latchBytes; while (i--)` send a
zero byte through the primitive of the selected mode. -/
def sendLatch (s : LPD8806VD) : List Event :=
  List.replicate s.latchBytes (sendByte s 0)

/-- `show()`. -/
def showFrame (s : LPD8806VD) : Option (List Event) := do
  let px ← showPixels s s.numLEDs 0
  pure (px ++ sendLatch s)

/-- `startSPI()`. -/
def startSPI (s : LPD8806VD) : List Event :=
  [Event.spiBegin, Event.spiSetBitOrderMSBFirst, Event.spiSetDataMode0, Event.spiSetClockDiv4] ++
    (if s.latchBytes = 0 then [] else List.replicate s.latchBytes (Event.spiTransfer 0))

/-- `startBitbang()`. -/
def startBitbang (s : LPD8806VD) : List Event :=
  [Event.pinModeOutput s.datapin, Event.pinModeOutput s.clkpin] ++
    (if s.latchBytes = 0 then [] else List.replicate s.latchBytes (Event.bitBangByte 0))

/-- `begin()`. -/
def begin (s : LPD8806VD) : LPD8806VD × List Event :=
  let ev := if s.hardwareSPI = true then startSPI s else startBitbang s
  ({ s with begun := true }, ev)

/-- `updatePins(void)`: switch to hardware SPI. -/
def updatePins (s : LPD8806VD) : LPD8806VD × List Event :=
  let s1 := { s with hardwareSPI := true, datapin := 0, clkpin := 0 }
  (s1, if s1.begun = true then startSPI s1 else [])

/-- `updatePins(uint8_t dpin, uint8_t cpin)`: switch to bit-banged pins. -/
def updatePinsTo (s : LPD8806VD) (dpin cpin : Nat) : LPD8806VD × List Event :=
  let s1 := { s with datapin := dpin, clkpin := cpin }
  let ev :=
    if s1.begun = true then
      (if s1.hardwareSPI = true then [Event.spiEnd] else []) ++ startBitbang s1
    else []
  ({ s1 with hardwareSPI := false }, ev)

/-! ## Constructors

`raw` is the storage of the object before the constructor body runs: the
members have no initialisers, so a member the body does not assign keeps the
value found there. -/

/-- `LPD8806VD(uint16_t n, uint8_t *buf, uint8_t depth)`: hardware SPI. -/
def ctorSPI (t : Target) (raw : LPD8806VD) (n : Nat) (buf : Option (List Nat))
    (depth : Nat) : Option (LPD8806VD × List Event) := do
  let s1 := { raw with pixels := buf }
  let s2 := { s1 with begun := false }
  let s3 := setColorDepth s2 depth
  let s4 ← updateLength t s3 n
  pure (updatePins s4)

/-- `LPD8806VD(uint16_t n, uint8_t depth)`: the body is the expression
statement `LPD8806VD(n, (uint8_t *)NULL, depth);`, which constructs a
temporary object in the storage `tmp` and discards it. -/
def ctorSPINoBuffer (t : Target) (raw tmp : LPD8806VD) (n depth : Nat) :
    Option (LPD8806VD × List Event) := do
  let r ← ctorSPI t tmp n none depth
  pure (raw, r.2)

/-- `LPD8806VD(uint16_t n, uint8_t dpin, uint8_t cpin, uint8_t *buf,
uint8_t depth)`: bit-banged pins. -/
def ctorBitbang (t : Target) (raw : LPD8806VD) (n dpin cpin : Nat)
    (buf : Option (List Nat)) (depth : Nat) : Option (LPD8806VD × List Event) := do
  let s1 := { raw with pixels := buf }
  let s2 := { s1 with begun := false }
  let s3 := setColorDepth s2 depth
  let s4 ← updateLength t s3 n
  pure (updatePinsTo s4 dpin cpin)

/-- `LPD8806VD(uint16_t n, uint8_t dpin, uint8_t cpin, uint8_t depth)`: the
body is the expression statement
`LPD8806VD(n, dpin, cpin, (uint8_t *)NULL, depth);`, a discarded temporary. -/
def ctorBitbangNoBuffer (t : Target) (raw tmp : LPD8806VD) (n dpin cpin depth : Nat) :
    Option (LPD8806VD × List Event) := do
  let r ← ctorBitbang t tmp n dpin cpin none depth
  pure (raw, r.2)

/-- Zero-initialised storage: what a driver object with static storage
duration (a global of a sketch) holds before its constructor runs. -/
def zeroStorage : LPD8806VD :=
  { colorDepth := 0, numLEDs := 0, latchBytes := 0, pixels := none,
    clkpin := 0, datapin := 0, hardwareSPI := false, begun := false }

/-! ## Specification-side vocabulary -/

/-- The byte transmissions among a list of events, in order. -/
def byteEvents (ev : List Event) : List Event :=
  ev.filter (fun e => e.wireByte.isSome)

/-- What `getPixelColor(n)` returns for the stored bytes of pixel `n`: the
stored byte at depth 1, the big-endian 16-bit value without bit 15 at depth 2,
the three stored bytes without their top bits at depth 3. -/
def readBack (s : LPD8806VD) (buf : List Nat) (n : Nat) : Nat :=
  match s.colorDepth with
  | 1 => buf.getD n 0
  | 2 => (buf.getD (n * 2) 0 * 256 + buf.getD (n * 2 + 1) 0) % 32768
  | 3 => buf.getD (n * 3) 0 % 128 * 65536 + buf.getD (n * 3 + 1) 0 % 128 * 256 +
      buf.getD (n * 3 + 2) 0 % 128
  | _ => 0

/-- The bytes a list of events puts on the wire, in order. -/
def wireBytes (ev : List Event) : List Nat := ev.filterMap Event.wireByte

/-- A driver in hardware mode, not begun, with the given depth, length, latch
count and buffer contents: the state used in the worked examples. -/
def fixture (depth n latch : Nat) (buf : Option (List Nat)) : LPD8806VD :=
  { colorDepth := depth, numLEDs := n, latchBytes := latch, pixels := buf,
    clkpin := 0, datapin := 0, hardwareSPI := true, begun := false }

/-- The decoded components `(G, R, B)` of pixel `i` of a buffer, as the
specification words them: the three getters of the stored byte at depth 1, of
the big-endian 16-bit stored value at depth 2, the raw bytes at depth 3. -/
def storedGRB (s : LPD8806VD) (buf : List Nat) (i : Nat) : Nat × Nat × Nat :=
  match s.colorDepth with
  | 1 =>
    let c := buf.getD i 0
    (getGreen8 c, getRed8 c, getBlue8 c)
  | 2 =>
    let c := buf.getD (i * 2) 0 * 256 + buf.getD (i * 2 + 1) 0
    (getGreen16 c, getRed16 c, getBlue16 c)
  | 3 => (buf.getD (i * 3) 0, buf.getD (i * 3 + 1) 0, buf.getD (i * 3 + 2) 0)
  | _ => (0, 0, 0)

/-- The three wire bytes of pixel `i`: G, R, B, each with the top bit set. -/
def pixelWire (s : LPD8806VD) (buf : List Nat) (i : Nat) : List Nat :=
  [(storedGRB s buf i).1 ||| 0x80, (storedGRB s buf i).2.1 ||| 0x80,
    (storedGRB s buf i).2.2 ||| 0x80]

/-- The byte stream of one frame as the specification words it: the wire
bytes of pixels `0 .. numLEDs - 1` in ascending order, then `latchBytes`
zero bytes. -/
def frameBytes (s : LPD8806VD) (buf : List Nat) : List Nat :=
  (List.range s.numLEDs).flatMap (pixelWire s buf) ++ List.replicate s.latchBytes 0

/-- A buffer with the `d` bytes of pixel `n` replaced by the low `d` bytes of
`c`, most significant first. -/
def putPixel (d : Nat) (buf : List Nat) (n c : Nat) : List Nat :=
  match d with
  | 1 => buf.set n (c % 256)
  | 2 => (buf.set (n * 2) ((c >>> 8) % 256)).set (n * 2 + 1) (c % 256)
  | 3 => ((buf.set (n * 3) ((c >>> 16) % 256)).set (n * 3 + 1) ((c >>> 8) % 256)).set
      (n * 3 + 2) (c % 256)
  | _ => buf

/-- The bits of the red channel a depth stores: top 3, top 5, top 7. -/
def maskR (d : Nat) : Nat :=
  match d with
  | 1 => 0xE0
  | 2 => 0xF8
  | _ => 0xFE

/-- The bits of the green channel a depth stores: top 3, top 5, top 7. -/
def maskG (d : Nat) : Nat :=
  match d with
  | 1 => 0xE0
  | 2 => 0xF8
  | _ => 0xFE

/-- The bits of the blue channel a depth stores: top 2, top 5, top 7. -/
def maskB (d : Nat) : Nat :=
  match d with
  | 1 => 0xC0
  | 2 => 0xF8
  | _ => 0xFE

/-! ## Bit arithmetic

Masks, shifts and disjoint ORs of the codec as division and remainder, so that
linear arithmetic can finish. -/

theorem land_mask (x j k : Nat) :
    x &&& ((2 ^ k - 1) <<< j) = ((x >>> j) % 2 ^ k) <<< j := by
  apply Nat.eq_of_testBit_eq
  intro i
  simp only [Nat.testBit_and, Nat.testBit_shiftLeft, Nat.testBit_two_pow_sub_one,
    Nat.testBit_mod_two_pow, Nat.testBit_shiftRight]
  by_cases h : j ≤ i
  · have : j + (i - j) = i := by omega
    simp [h, this, Bool.and_comm]
  · simp [h]

theorem land_E0 (x : Nat) : x &&& 0b11100000 = x / 32 % 8 * 32 := by
  simpa [Nat.shiftLeft_eq, Nat.shiftRight_eq_div_pow] using land_mask x 5 3

theorem land_1C (x : Nat) : x &&& 0b00011100 = x / 4 % 8 * 4 := by
  simpa [Nat.shiftLeft_eq, Nat.shiftRight_eq_div_pow] using land_mask x 2 3

theorem land_03 (x : Nat) : x &&& 0b00000011 = x % 4 := by
  simpa [Nat.shiftLeft_eq, Nat.shiftRight_eq_div_pow] using land_mask x 0 2

theorem land_C0 (x : Nat) : x &&& 0b11000000 = x / 64 % 4 * 64 := by
  simpa [Nat.shiftLeft_eq, Nat.shiftRight_eq_div_pow] using land_mask x 6 2

theorem land_F8 (x : Nat) : x &&& 0b11111000 = x / 8 % 32 * 8 := by
  simpa [Nat.shiftLeft_eq, Nat.shiftRight_eq_div_pow] using land_mask x 3 5

theorem land_FE (x : Nat) : x &&& 0b11111110 = x / 2 % 128 * 2 := by
  simpa [Nat.shiftLeft_eq, Nat.shiftRight_eq_div_pow] using land_mask x 1 7

theorem land_7C00 (x : Nat) : x &&& 0b0111110000000000 = x / 1024 % 32 * 1024 := by
  simpa [Nat.shiftLeft_eq, Nat.shiftRight_eq_div_pow] using land_mask x 10 5

theorem land_03E0 (x : Nat) : x &&& 0b0000001111100000 = x / 32 % 32 * 32 := by
  simpa [Nat.shiftLeft_eq, Nat.shiftRight_eq_div_pow] using land_mask x 5 5

theorem land_1F (x : Nat) : x &&& 0b0000000000011111 = x % 32 := by
  simpa [Nat.shiftLeft_eq, Nat.shiftRight_eq_div_pow] using land_mask x 0 5

theorem ff_land (x : Nat) : 0x000000ff &&& x = x % 256 := by
  rw [Nat.land_comm]; exact Nat.and_pow_two_sub_one_eq_mod x 8

theorem ffff_land (x : Nat) : 0x0000ffff &&& x = x % 65536 := by
  rw [Nat.land_comm]; exact Nat.and_pow_two_sub_one_eq_mod x 16

theorem ffffff_land (x : Nat) : 0x00ffffff &&& x = x % 16777216 := by
  rw [Nat.land_comm]; exact Nat.and_pow_two_sub_one_eq_mod x 24

/-- An OR of a multiple of `2^i` with a value below `2^i` is their sum. -/
theorem lor_eq_add (i a b : Nat) (ha : a % 2 ^ i = 0) (hb : b < 2 ^ i) :
    a ||| b = a + b := by
  have h : a = 2 ^ i * (a / 2 ^ i) := by
    have := Nat.div_add_mod a (2 ^ i)
    omega
  rw [h, Nat.mul_add_lt_is_or hb]

/-- A multiple of `2^i` and a value below `2^i` share no bit. -/
theorem land_eq_zero (i a b : Nat) (ha : a % 2 ^ i = 0) (hb : b < 2 ^ i) :
    a &&& b = 0 := by
  have hb1 : b &&& (2 ^ i - 1) = b := by
    rw [Nat.and_pow_two_sub_one_eq_mod, Nat.mod_eq_of_lt hb]
  calc a &&& b = a &&& (b &&& (2 ^ i - 1)) := by rw [hb1]
    _ = (a &&& (2 ^ i - 1)) &&& b := by
      rw [Nat.land_comm b, Nat.land_assoc]
    _ = 0 := by rw [Nat.and_pow_two_sub_one_eq_mod, ha, Nat.zero_and]

theorem lor_0x80_byte (m : Nat) (h : m < 256) : m ||| 0x80 = 128 + m % 128 := by
  interval_cases m <;> rfl

theorem lor_0x80 (x : Nat) : x ||| 0x80 = x / 256 * 256 + 128 + x % 128 := by
  have key : ∀ h m : Nat, m < 256 →
      (2 ^ 8 * h + m) ||| 0x80 = 2 ^ 8 * h + (128 + m % 128) := by
    intro h m hm
    have hor : m ||| 0x80 < 2 ^ 8 := Nat.or_lt_two_pow (by omega) (by norm_num)
    rw [Nat.mul_add_lt_is_or (by omega) h, Nat.lor_assoc, ← Nat.mul_add_lt_is_or hor,
      lor_0x80_byte m hm]
  have hx : x = 2 ^ 8 * (x / 256) + x % 256 := by omega
  have := key (x / 256) (x % 256) (Nat.mod_lt _ (by norm_num))
  rw [← hx] at this
  omega

theorem x80_lor (x : Nat) (h : x < 128) : 0x80 ||| x = 128 + x :=
  lor_eq_add 7 0x80 x (by norm_num) (by omega)

/-- The depth 1 pack `rrrgggbb`, before the `0xff` mask, in arithmetic form. -/
theorem pack8_raw (r g b : Nat) (hr : r < 256) (hg : g < 256) (hb : b < 256) :
    ((r &&& 0b11100000) ||| ((g &&& 0b11100000) >>> 3)) ||| ((b &&& 0b11000000) >>> 6)
    = r / 32 * 32 + g / 32 * 4 + b / 64 := by
  rw [land_E0, land_E0, land_C0,
    lor_eq_add 5 (r / 32 % 8 * 32) _ (by omega) (by omega),
    lor_eq_add 2 _ _ (by omega) (by omega)]
  omega

/-- The depth 1 pack `rrrgggbb` in arithmetic form. -/
theorem pack8 (r g b : Nat) (hr : r < 256) (hg : g < 256) (hb : b < 256) :
    0x000000ff &&&
      (((r &&& 0b11100000) ||| ((g &&& 0b11100000) >>> 3)) ||| ((b &&& 0b11000000) >>> 6))
    = r / 32 * 32 + g / 32 * 4 + b / 64 := by
  rw [ff_land, pack8_raw r g b hr hg hb]
  omega

/-- The depth 2 pack `0rrrrrgg gggbbbbb`, before the `0xffff` mask, in
arithmetic form. -/
theorem pack16_raw (r g b : Nat) (hr : r < 256) (hg : g < 256) (hb : b < 256) :
    (((r &&& 0b11111000) <<< 7) ||| ((g &&& 0b11111000) <<< 2)) |||
        ((b &&& 0b11111000) >>> 3)
    = r / 8 * 1024 + g / 8 * 32 + b / 8 := by
  rw [land_F8, land_F8, land_F8,
    lor_eq_add 10 ((r / 8 % 32 * 8) <<< 7) _ (by omega) (by omega),
    lor_eq_add 5 _ _ (by omega) (by omega)]
  omega

/-- The depth 2 pack `0rrrrrgg gggbbbbb` in arithmetic form. -/
theorem pack16 (r g b : Nat) (hr : r < 256) (hg : g < 256) (hb : b < 256) :
    0x0000ffff &&&
      ((((r &&& 0b11111000) <<< 7) ||| ((g &&& 0b11111000) <<< 2)) |||
        ((b &&& 0b11111000) >>> 3))
    = r / 8 * 1024 + g / 8 * 32 + b / 8 := by
  rw [ffff_land, pack16_raw r g b hr hg hb]
  omega

/-- The depth 3 pack in arithmetic form: the low bit of `g` lands in bit 15
and the low bit of `r` in bit 7. -/
theorem pack24 (r g b : Nat) (hr : r < 256) (hg : g < 256) (hb : b < 256) :
    0x00ffffff &&& (((g <<< (16 - 1)) ||| (r <<< (8 - 1))) ||| (b >>> 1))
    = g * 32768 + r * 128 + b / 2 := by
  rw [ffffff_land,
    lor_eq_add 15 (g <<< (16 - 1)) _ (by omega) (by omega),
    lor_eq_add 7 _ _ (by omega) (by omega)]
  omega

theorem Color_depth1 (s : LPD8806VD) (r g b : Nat) (hd : s.colorDepth = 1)
    (hr : r < 256) (hg : g < 256) (hb : b < 256) :
    Color s r g b = r / 32 * 32 + g / 32 * 4 + b / 64 := by
  simp only [Color, hd]
  exact pack8 r g b hr hg hb

theorem Color_depth2 (s : LPD8806VD) (r g b : Nat) (hd : s.colorDepth = 2)
    (hr : r < 256) (hg : g < 256) (hb : b < 256) :
    Color s r g b = r / 8 * 1024 + g / 8 * 32 + b / 8 := by
  simp only [Color, hd]
  exact pack16 r g b hr hg hb

theorem Color_depth3 (s : LPD8806VD) (r g b : Nat) (hd : s.colorDepth = 3)
    (hr : r < 256) (hg : g < 256) (hb : b < 256) :
    Color s r g b = g * 32768 + r * 128 + b / 2 := by
  simp only [Color, hd]
  exact pack24 r g b hr hg hb

theorem getRed8_eq (c : Nat) : getRed8 c = c / 32 % 8 * 16 := by
  simp only [getRed8, land_E0]; omega

theorem getGreen8_eq (c : Nat) : getGreen8 c = c / 4 % 8 * 16 := by
  simp only [getGreen8, land_1C]; omega

theorem getBlue8_eq (c : Nat) : getBlue8 c = c % 4 * 32 := by
  simp only [getBlue8, land_03]; omega

theorem getRed16_eq (c : Nat) : getRed16 c = c / 1024 % 32 * 4 := by
  simp only [getRed16, land_7C00]; omega

theorem getGreen16_eq (c : Nat) : getGreen16 c = c / 32 % 32 * 4 := by
  simp only [getGreen16, land_03E0]; omega

theorem getBlue16_eq (c : Nat) : getBlue16 c = c % 32 * 4 := by
  simp only [getBlue16, land_1F]; omega

/-! ## Buffer reads and the pixel loop -/

theorem getD_lt (buf : List Nat) (hb : ∀ x ∈ buf, x < 256) (i : Nat) :
    buf.getD i 0 < 256 := by
  by_cases hi : i < buf.length
  · rw [List.getD_eq_getElem _ _ hi]
    exact hb _ (List.getElem_mem hi)
  · rw [List.getD_eq_default _ _ (by omega)]
    norm_num

theorem rd_some (s : LPD8806VD) (buf : List Nat) (i : Nat) (hp : s.pixels = some buf)
    (hi : i < buf.length) : rd s i = some (buf.getD i 0) := by
  simp [rd, hp, List.getD_eq_getElem _ _ hi, List.getElem?_eq_getElem hi]

/-- The big-endian 16-bit value `show()` assembles from two stored bytes. -/
theorem color16_eq (hi lo : Nat) (h1 : hi < 256) (h2 : lo < 256) :
    (((hi <<< 8) % 65536) ||| lo) % 65536 = hi * 256 + lo := by
  have h : (hi <<< 8) % 65536 = hi * 256 := by omega
  rw [h, lor_eq_add 8 _ _ (by omega) (by omega)]
  omega

/-- Within the buffer, the decode switch yields the components the
specification names. -/
theorem readGRB_eq (s : LPD8806VD) (buf : List Nat) (i : Nat)
    (hd : s.colorDepth = 1 ∨ s.colorDepth = 2 ∨ s.colorDepth = 3)
    (hp : s.pixels = some buf) (hb : ∀ x ∈ buf, x < 256)
    (hi : (i + 1) * s.colorDepth ≤ buf.length) :
    readGRB s (i * s.colorDepth) = some (storedGRB s buf i) := by
  rcases hd with hd | hd | hd
  · rw [hd] at hi
    simp [readGRB, storedGRB, hd, rd_some s buf i hp (by omega)]
  · rw [hd] at hi
    have hc := color16_eq _ _ (getD_lt buf hb (i * 2)) (getD_lt buf hb (i * 2 + 1))
    simp only [readGRB, storedGRB, hd, rd_some s buf (i * 2) hp (by omega),
      rd_some s buf (i * 2 + 1) hp (by omega), Option.bind_eq_bind, Option.some_bind,
      Option.pure_def, hc]
  · rw [hd] at hi
    simp [readGRB, storedGRB, hd, rd_some s buf (i * 3) hp (by omega),
      rd_some s buf (i * 3 + 1) hp (by omega), rd_some s buf (i * 3 + 2) hp (by omega)]

/-- Every decoded component is a byte. -/
theorem storedGRB_lt (s : LPD8806VD) (buf : List Nat) (i : Nat)
    (hb : ∀ x ∈ buf, x < 256) :
    (storedGRB s buf i).1 < 256 ∧ (storedGRB s buf i).2.1 < 256 ∧
      (storedGRB s buf i).2.2 < 256 := by
  unfold storedGRB
  split
  · simp only [getGreen8, getRed8, getBlue8]
    refine ⟨Nat.mod_lt _ (by norm_num), Nat.mod_lt _ (by norm_num), Nat.mod_lt _ (by norm_num)⟩
  · simp only [getGreen16, getRed16, getBlue16]
    refine ⟨Nat.mod_lt _ (by norm_num), Nat.mod_lt _ (by norm_num), Nat.mod_lt _ (by norm_num)⟩
  · exact ⟨getD_lt buf hb _, getD_lt buf hb _, getD_lt buf hb _⟩
  · simp

theorem lor_0x80_mod (x : Nat) (h : x < 256) : (x ||| 0x80) % 256 = x ||| 0x80 := by
  rw [lor_0x80]; omega

/-- The pixel loop sends the wire bytes of pixels `i0 .. i0 + k - 1`. -/
theorem showPixels_eq (s : LPD8806VD) (buf : List Nat)
    (hd : s.colorDepth = 1 ∨ s.colorDepth = 2 ∨ s.colorDepth = 3)
    (hp : s.pixels = some buf) (hb : ∀ x ∈ buf, x < 256) :
    ∀ (k i0 : Nat), (i0 + k) * s.colorDepth ≤ buf.length →
      showPixels s k (i0 * s.colorDepth) =
        some (((List.range' i0 k).flatMap (pixelWire s buf)).map (sendByte s)) := by
  intro k
  induction k with
  | zero => intro i0 _; simp [showPixels]
  | succ k ih =>
    intro i0 hlen
    have h1 : (i0 + 1) * s.colorDepth ≤ buf.length := by
      have : (i0 + 1) * s.colorDepth ≤ (i0 + (k + 1)) * s.colorDepth :=
        Nat.mul_le_mul_right _ (by omega)
      omega
    have h2 : i0 * s.colorDepth + s.colorDepth = (i0 + 1) * s.colorDepth := by
      rw [Nat.add_mul, Nat.one_mul]
    have h3 : (i0 + 1 + k) * s.colorDepth ≤ buf.length := by
      have : i0 + 1 + k = i0 + (k + 1) := by omega
      rw [this]; exact hlen
    obtain ⟨hg, hr, hbl⟩ := storedGRB_lt s buf i0 hb
    simp [showPixels, readGRB_eq s buf i0 hd hp hb h1, h2, ih (i0 + 1) h3,
      List.range'_succ, pixelWire, lor_0x80_mod _ hg, lor_0x80_mod _ hr, lor_0x80_mod _ hbl]

/-- The events of a frame are the frame bytes, each through the primitive of
the selected mode. -/
theorem showFrame_eq (s : LPD8806VD) (buf : List Nat)
    (hd : s.colorDepth = 1 ∨ s.colorDepth = 2 ∨ s.colorDepth = 3)
    (hp : s.pixels = some buf) (hb : ∀ x ∈ buf, x < 256)
    (hlen : s.numLEDs * s.colorDepth ≤ buf.length) :
    showFrame s = some ((frameBytes s buf).map (sendByte s)) := by
  have h := showPixels_eq s buf hd hp hb s.numLEDs 0 (by simpa using hlen)
  simp only [Nat.zero_mul] at h
  simp [showFrame, h, frameBytes, sendLatch, List.range_eq_range']

theorem wireBytes_map_sendByte (s : LPD8806VD) (l : List Nat) :
    wireBytes (l.map (sendByte s)) = l := by
  induction l with
  | nil => rfl
  | cons x xs ih =>
    have hx : Event.wireByte (sendByte s x) = some x := by
      unfold sendByte; split <;> rfl
    simp only [wireBytes, List.map_cons, List.filterMap_cons, hx] at ih ⊢
    rw [ih]

theorem pixelWire_length (s : LPD8806VD) (buf : List Nat) (i : Nat) :
    (pixelWire s buf i).length = 3 := rfl

theorem flatMap_pixelWire_length (s : LPD8806VD) (buf : List Nat) :
    ∀ (k i0 : Nat), ((List.range' i0 k).flatMap (pixelWire s buf)).length = k * 3 := by
  intro k
  induction k with
  | zero => intro i0; simp
  | succ k ih =>
    intro i0
    simp only [List.range'_succ, List.flatMap_cons, List.length_append, pixelWire_length,
      ih (i0 + 1)]
    omega

/-- Position `n * 3 + j` of the pixel part of the stream is byte `j` of pixel
`i0 + n`. -/
theorem flatMap_pixelWire_get (s : LPD8806VD) (buf : List Nat) :
    ∀ (k i0 n j : Nat), n < k → j < 3 →
      ((List.range' i0 k).flatMap (pixelWire s buf))[n * 3 + j]? =
        (pixelWire s buf (i0 + n))[j]? := by
  intro k
  induction k with
  | zero => intro i0 n j hn; omega
  | succ k ih =>
    intro i0 n j hn hj
    simp only [List.range'_succ, List.flatMap_cons]
    cases n with
    | zero =>
      rw [List.getElem?_append_left (by rw [pixelWire_length]; omega)]
      simp
    | succ m =>
      rw [List.getElem?_append_right (by rw [pixelWire_length]; omega), pixelWire_length]
      have h1 : (m + 1) * 3 + j - 3 = m * 3 + j := by omega
      have h2 : i0 + (m + 1) = i0 + 1 + m := by omega
      rw [h1, h2]
      exact ih (i0 + 1) m j (by omega) hj

theorem frameBytes_length (s : LPD8806VD) (buf : List Nat) :
    (frameBytes s buf).length = s.numLEDs * 3 + s.latchBytes := by
  unfold frameBytes
  rw [List.length_append, List.range_eq_range', flatMap_pixelWire_length,
    List.length_replicate]

theorem frameBytes_pixel (s : LPD8806VD) (buf : List Nat) (n j : Nat)
    (hn : n < s.numLEDs) (hj : j < 3) :
    (frameBytes s buf)[n * 3 + j]? = (pixelWire s buf n)[j]? := by
  unfold frameBytes
  rw [List.getElem?_append_left
    (by rw [List.range_eq_range', flatMap_pixelWire_length]; omega),
    List.range_eq_range', flatMap_pixelWire_get s buf s.numLEDs 0 n j hn hj, Nat.zero_add]

theorem frameBytes_latch (s : LPD8806VD) (buf : List Nat) (k : Nat)
    (h1 : s.numLEDs * 3 ≤ k) (h2 : k < s.numLEDs * 3 + s.latchBytes) :
    (frameBytes s buf)[k]? = some 0 := by
  unfold frameBytes
  rw [List.getElem?_append_right
    (by rw [List.range_eq_range', flatMap_pixelWire_length]; omega),
    List.range_eq_range', flatMap_pixelWire_length]
  exact List.getElem?_replicate_of_lt (by omega)

/-! ## Writing a pixel -/

theorem wrapInt_of_le (t : Target) (x : Nat) (h : x ≤ t.sizeMax) : t.wrapInt x = x := by
  cases t
  · simp only [Target.sizeMax] at h
    simp only [Target.wrapInt]
    omega
  · rfl

theorem pixel_offset_lt (s : LPD8806VD) (buf : List Nat) (n : Nat)
    (hlen : s.numLEDs * s.colorDepth ≤ buf.length) (hn : n < s.numLEDs) :
    (n + 1) * s.colorDepth ≤ buf.length :=
  le_trans (Nat.mul_le_mul_right _ hn) hlen

/-- Within the buffer, `setPixelColor` replaces the bytes of pixel `n` and
nothing else. -/
theorem setPixelColor_eq (t : Target) (s : LPD8806VD) (buf : List Nat) (n c : Nat)
    (hd : s.colorDepth = 1 ∨ s.colorDepth = 2 ∨ s.colorDepth = 3)
    (hp : s.pixels = some buf) (hlen : s.numLEDs * s.colorDepth ≤ buf.length)
    (hsz : buf.length ≤ t.sizeMax) (hn : n < s.numLEDs) :
    setPixelColor t s n c = some { s with pixels := some (putPixel s.colorDepth buf n c) } := by
  have ho := pixel_offset_lt s buf n hlen hn
  have hw : t.wrapInt (n * s.colorDepth) = n * s.colorDepth :=
    wrapInt_of_le t _ (by rw [Nat.add_mul] at ho; omega)
  rcases hd with hd | hd | hd
  · rw [hd] at ho hw
    have h0 : n < buf.length := by omega
    rw [Nat.mul_one] at hw
    simp [setPixelColor, putPixel, hd, hw, wr, hp, h0]
  · rw [hd] at ho hw
    have h0 : n * 2 < buf.length := by omega
    have h1 : n * 2 + 1 < buf.length := by omega
    simp [setPixelColor, putPixel, hd, hw, wr, hp, h0, h1]
  · rw [hd] at ho hw
    have h0 : n * 3 < buf.length := by omega
    have h1 : n * 3 + 1 < buf.length := by omega
    have h2 : n * 3 + 2 < buf.length := by omega
    simp [setPixelColor, putPixel, hd, hw, wr, hp, h0, h1, h2]

theorem putPixel_length (d : Nat) (buf : List Nat) (n c : Nat) :
    (putPixel d buf n c).length = buf.length := by
  unfold putPixel
  split <;> simp

theorem putPixel_bytes (d : Nat) (buf : List Nat) (n c : Nat) (hb : ∀ x ∈ buf, x < 256) :
    ∀ x ∈ putPixel d buf n c, x < 256 := by
  have hset : ∀ (l : List Nat) (i v : Nat), (∀ x ∈ l, x < 256) →
      ∀ x ∈ l.set i (v % 256), x < 256 := by
    intro l i v hl x hx
    rcases List.mem_or_eq_of_mem_set hx with h | h
    · exact hl x h
    · rw [h]; exact Nat.mod_lt _ (by norm_num)
  unfold putPixel
  split
  · exact hset _ _ _ hb
  · exact hset _ _ _ (hset _ _ _ hb)
  · exact hset _ _ _ (hset _ _ _ (hset _ _ _ hb))
  · exact hb

/-- After `putPixel`, the decoded components of pixel `n` are those of the
value written. -/
theorem storedGRB_putPixel (s s1 : LPD8806VD) (buf : List Nat) (n c : Nat)
    (hd : s.colorDepth = 1 ∨ s.colorDepth = 2 ∨ s.colorDepth = 3)
    (hs : s1.colorDepth = s.colorDepth)
    (ho : (n + 1) * s.colorDepth ≤ buf.length) :
    storedGRB s1 (putPixel s.colorDepth buf n c) n =
      match s.colorDepth with
      | 1 => (getGreen8 (c % 256), getRed8 (c % 256), getBlue8 (c % 256))
      | 2 => (getGreen16 ((c >>> 8) % 256 * 256 + c % 256),
          getRed16 ((c >>> 8) % 256 * 256 + c % 256),
          getBlue16 ((c >>> 8) % 256 * 256 + c % 256))
      | _ => ((c >>> 16) % 256, (c >>> 8) % 256, c % 256) := by
  rcases hd with hd | hd | hd
  · rw [hd] at ho
    have h0 : n < buf.length := by omega
    simp [storedGRB, putPixel, hs, hd, h0]
  · rw [hd] at ho
    have h0 : n * 2 < buf.length := by omega
    have h1 : n * 2 + 1 < buf.length := by omega
    simp [storedGRB, putPixel, hs, hd, h0, h1]
  · rw [hd] at ho
    have h0 : n * 3 < buf.length := by omega
    have h1 : n * 3 + 1 < buf.length := by omega
    have h2 : n * 3 + 2 < buf.length := by omega
    simp [storedGRB, putPixel, hs, hd, h0, h1, h2]

/-- The wire bytes of a pixel just written with `Color(r, g, b)`. -/
theorem pixelWire_after_Color (s s1 : LPD8806VD) (buf : List Nat) (n r g b : Nat)
    (hd : s.colorDepth = 1 ∨ s.colorDepth = 2 ∨ s.colorDepth = 3)
    (hs : s1.colorDepth = s.colorDepth)
    (ho : (n + 1) * s.colorDepth ≤ buf.length)
    (hr : r < 256) (hg : g < 256) (hb : b < 256) :
    pixelWire s1 (putPixel s.colorDepth buf n (Color s r g b)) n =
      [0x80 ||| ((g &&& maskG s.colorDepth) >>> 1),
       0x80 ||| ((r &&& maskR s.colorDepth) >>> 1),
       0x80 ||| ((b &&& maskB s.colorDepth) >>> 1)] := by
  unfold pixelWire
  rw [storedGRB_putPixel s s1 buf n _ hd hs ho]
  rcases hd with hd | hd | hd
  · simp only [hd, maskG, maskR, maskB, Color_depth1 s r g b hd hr hg hb, getGreen8_eq,
      getRed8_eq, getBlue8_eq, lor_0x80, land_E0, land_C0]
    rw [x80_lor _ (by omega), x80_lor _ (by omega), x80_lor _ (by omega)]
    simp only [List.cons.injEq, and_true]
    omega
  · simp only [hd, maskG, maskR, maskB, Color_depth2 s r g b hd hr hg hb, getGreen16_eq,
      getRed16_eq, getBlue16_eq, lor_0x80, land_F8]
    rw [x80_lor _ (by omega), x80_lor _ (by omega), x80_lor _ (by omega)]
    simp only [List.cons.injEq, and_true]
    omega
  · simp only [hd, maskG, maskR, maskB, Color_depth3 s r g b hd hr hg hb, lor_0x80, land_FE]
    rw [x80_lor _ (by omega), x80_lor _ (by omega), x80_lor _ (by omega)]
    simp only [List.cons.injEq, and_true]
    omega

/-! ## Clearing -/

theorem rd_of_getElem? (s : LPD8806VD) (buf : List Nat) (j v : Nat)
    (hp : s.pixels = some buf) (h : buf[j]? = some v) : rd s j = some v := by
  simp [rd, hp, h]

theorem memset_zero_eq (buf : List Nat) (len : Nat) (h : len ≤ buf.length) :
    memset buf 0 len = some (List.replicate len 0 ++ buf.drop len) := by
  simp [memset, h]

/-- With a buffer that holds the strip, `clear()` zero-fills the first
`numLEDs * colorDepth` bytes and keeps the rest. -/
theorem clear_eq (t : Target) (s : LPD8806VD) (buf : List Nat) (hp : s.pixels = some buf)
    (hlen : s.numLEDs * s.colorDepth ≤ buf.length) (hsz : buf.length ≤ t.sizeMax) :
    clear t s = some { s with
      pixels := some (List.replicate (s.numLEDs * s.colorDepth) 0 ++
        buf.drop (s.numLEDs * s.colorDepth)) } := by
  have hw : t.wrapInt (s.numLEDs * s.colorDepth) = s.numLEDs * s.colorDepth :=
    wrapInt_of_le t _ (by omega)
  simp [clear, hp, hw, memset_zero_eq buf _ hlen]

theorem cleared_length (buf : List Nat) (k : Nat) (h : k ≤ buf.length) :
    (List.replicate k 0 ++ buf.drop k).length = buf.length := by
  simp; omega

theorem cleared_low (buf : List Nat) (k i : Nat) (hi : i < k) :
    (List.replicate k 0 ++ buf.drop k)[i]? = some 0 := by
  rw [List.getElem?_append_left (by simpa using hi)]
  exact List.getElem?_replicate_of_lt hi

theorem cleared_high (buf : List Nat) (k i : Nat) (hi : k ≤ i) :
    (List.replicate k 0 ++ buf.drop k)[i]? = buf[i]? := by
  rw [List.getElem?_append_right (by simpa using hi), List.getElem?_drop,
    List.length_replicate]
  congr 1
  omega

/-- A pixel whose bytes are all zero reads back as 0. -/
theorem getPixelColor_zero (t : Target) (s : LPD8806VD) (buf : List Nat) (i : Nat)
    (hd : s.colorDepth = 1 ∨ s.colorDepth = 2 ∨ s.colorDepth = 3)
    (hp : s.pixels = some buf) (hi : i < s.numLEDs)
    (hsz : s.numLEDs * s.colorDepth ≤ t.sizeMax)
    (hz : ∀ j, j < s.numLEDs * s.colorDepth → buf[j]? = some 0) :
    getPixelColor t s i = some 0 := by
  have ho : (i + 1) * s.colorDepth ≤ s.numLEDs * s.colorDepth :=
    Nat.mul_le_mul_right _ hi
  have hw : t.wrapInt (i * s.colorDepth) = i * s.colorDepth :=
    wrapInt_of_le t _ (by rw [Nat.add_mul] at ho; omega)
  rcases hd with hd | hd | hd
  · rw [hd] at ho hw hz
    have r0 := rd_of_getElem? s buf i 0 hp (hz _ (by omega))
    rw [Nat.mul_one] at hw
    simp [getPixelColor, hi, hw, readGRB, hd, r0, getGreen8, getRed8, getBlue8, Color]
  · rw [hd] at ho hw hz
    have r0 := rd_of_getElem? s buf (i * 2) 0 hp (hz _ (by omega))
    have r1 := rd_of_getElem? s buf (i * 2 + 1) 0 hp (hz _ (by omega))
    simp [getPixelColor, hi, hw, readGRB, hd, r0, r1, getGreen16, getRed16, getBlue16, Color]
  · rw [hd] at ho hw hz
    have r0 := rd_of_getElem? s buf (i * 3) 0 hp (hz _ (by omega))
    have r1 := rd_of_getElem? s buf (i * 3 + 1) 0 hp (hz _ (by omega))
    have r2 := rd_of_getElem? s buf (i * 3 + 2) 0 hp (hz _ (by omega))
    simp [getPixelColor, hi, hw, readGRB, hd, r0, r1, r2, Color]

/-! ## Colour codec: packing and decoding -/

/-- C5: for r, g, b in 0..255, `Color` at depth 1 is the 8-bit value
`(r & 0xE0) | ((g & 0xE0) >> 3) | ((b & 0xC0) >> 6)` and at depth 2 the 15-bit
value `((r & 0xF8) << 7) | ((g & 0xF8) << 2) | ((b & 0xF8) >> 3)`; the three
fields share no bit, the depth 1 result is below 2^8 and the depth 2 result
below 2^15. -/
theorem Color_bit_layout (s : LPD8806VD) (r g b : Nat)
    (hr : r < 256) (hg : g < 256) (hb : b < 256) :
    (s.colorDepth = 1 →
      Color s r g b = ((r &&& 0xE0) ||| ((g &&& 0xE0) >>> 3)) ||| ((b &&& 0xC0) >>> 6) ∧
      (r &&& 0xE0) &&& ((g &&& 0xE0) >>> 3) = 0 ∧
      (r &&& 0xE0) &&& ((b &&& 0xC0) >>> 6) = 0 ∧
      ((g &&& 0xE0) >>> 3) &&& ((b &&& 0xC0) >>> 6) = 0 ∧
      Color s r g b < 2 ^ 8) ∧
    (s.colorDepth = 2 →
      Color s r g b = ((r &&& 0xF8) <<< 7 ||| (g &&& 0xF8) <<< 2) ||| ((b &&& 0xF8) >>> 3) ∧
      ((r &&& 0xF8) <<< 7) &&& ((g &&& 0xF8) <<< 2) = 0 ∧
      ((r &&& 0xF8) <<< 7) &&& ((b &&& 0xF8) >>> 3) = 0 ∧
      ((g &&& 0xF8) <<< 2) &&& ((b &&& 0xF8) >>> 3) = 0 ∧
      Color s r g b < 2 ^ 15) := by
  refine ⟨fun hd => ⟨?_, ?_, ?_, ?_, ?_⟩, fun hd => ⟨?_, ?_, ?_, ?_, ?_⟩⟩
  · rw [Color_depth1 s r g b hd hr hg hb]
    exact (pack8_raw r g b hr hg hb).symm
  · exact land_eq_zero 5 _ _ (by rw [land_E0]; omega) (by rw [land_E0]; omega)
  · exact land_eq_zero 5 _ _ (by rw [land_E0]; omega) (by rw [land_C0]; omega)
  · exact land_eq_zero 2 _ _ (by rw [land_E0]; omega) (by rw [land_C0]; omega)
  · rw [Color_depth1 s r g b hd hr hg hb]; omega
  · rw [Color_depth2 s r g b hd hr hg hb]
    exact (pack16_raw r g b hr hg hb).symm
  · exact land_eq_zero 10 _ _ (by rw [land_F8]; omega) (by rw [land_F8]; omega)
  · exact land_eq_zero 10 _ _ (by rw [land_F8]; omega) (by rw [land_F8]; omega)
  · exact land_eq_zero 5 _ _ (by rw [land_F8]; omega) (by rw [land_F8]; omega)
  · rw [Color_depth2 s r g b hd hr hg hb]; omega

/-- C5 at concrete inputs: depth 1 packs (0xFF, 0x20, 0x40) and depth 2 packs
(0x08, 0xFF, 0x10). -/
theorem Color_bit_layout_witness :
    (Color (fixture 1 1 1 none) 0xFF 0x20 0x40 = 0xE5 ∧
      Color (fixture 1 1 1 none) 0xFF 0x20 0x40 < 2 ^ 8) ∧
    (Color (fixture 2 1 1 none) 0x08 0xFF 0x10 = 0x07E2 ∧
      Color (fixture 2 1 1 none) 0x08 0xFF 0x10 < 2 ^ 15) :=
  ⟨⟨((Color_bit_layout (fixture 1 1 1 none) 0xFF 0x20 0x40 (by decide) (by decide)
        (by decide)).1 rfl).1.trans (by decide),
    ((Color_bit_layout (fixture 1 1 1 none) 0xFF 0x20 0x40 (by decide) (by decide)
        (by decide)).1 rfl).2.2.2.2⟩,
   ⟨((Color_bit_layout (fixture 2 1 1 none) 0x08 0xFF 0x10 (by decide) (by decide)
        (by decide)).2 rfl).1.trans (by decide),
    ((Color_bit_layout (fixture 2 1 1 none) 0x08 0xFF 0x10 (by decide) (by decide)
        (by decide)).2 rfl).2.2.2.2⟩⟩

/-- C4 as stated fails: at depth 1 the red getter applied to
`Color(0xE0, 0, 0)` gives 0x70, not `0xE0 & 0xE0`. -/
theorem getRed8_Color_counterexample :
    getRed8 (Color (fixture 1 1 1 none) 0xE0 0 0) = 0x70 ∧
      getRed8 (Color (fixture 1 1 1 none) 0xE0 0 0) ≠ 0xE0 &&& 0xE0 := by
  decide

/-- C4 amended: decode undoes encode up to truncation and one right shift.  At
depth 1 the getters of `Color(r,g,b)` give `(r & 0xE0) >> 1`, `(g & 0xE0) >> 1`
and `(b & 0xC0) >> 1`; at depth 2 they give `(r & 0xF8) >> 1`, `(g & 0xF8) >> 1`
and `(b & 0xF8) >> 1`: the surviving bits sit in bits 6 and below of a 7-bit
component. -/
theorem decode_Color_truncates (s : LPD8806VD) (r g b : Nat)
    (hr : r < 256) (hg : g < 256) (hb : b < 256) :
    (s.colorDepth = 1 →
      getRed8 (Color s r g b) = (r &&& 0xE0) >>> 1 ∧
      getGreen8 (Color s r g b) = (g &&& 0xE0) >>> 1 ∧
      getBlue8 (Color s r g b) = (b &&& 0xC0) >>> 1) ∧
    (s.colorDepth = 2 →
      getRed16 (Color s r g b) = (r &&& 0xF8) >>> 1 ∧
      getGreen16 (Color s r g b) = (g &&& 0xF8) >>> 1 ∧
      getBlue16 (Color s r g b) = (b &&& 0xF8) >>> 1) := by
  refine ⟨fun hd => ?_, fun hd => ?_⟩
  · rw [Color_depth1 s r g b hd hr hg hb, getRed8_eq, getGreen8_eq, getBlue8_eq,
      land_E0, land_E0, land_C0]
    omega
  · rw [Color_depth2 s r g b hd hr hg hb, getRed16_eq, getGreen16_eq, getBlue16_eq,
      land_F8, land_F8, land_F8]
    omega

/-- C4 amended, at concrete inputs: decoding `Color(0b11100000, 0, 0)` at depth
1 recovers the top 3 bits of red, one place down; and a depth 2 example. -/
theorem decode_Color_truncates_witness :
    getRed8 (Color (fixture 1 1 1 none) 0b11100000 0 0) = 0b01110000 ∧
    getRed16 (Color (fixture 2 1 1 none) 0xFF 0 0) = 0x7C :=
  ⟨((decode_Color_truncates (fixture 1 1 1 none) 0b11100000 0 0 (by decide) (by decide)
      (by decide)).1 rfl).1.trans (by decide),
   ((decode_Color_truncates (fixture 2 1 1 none) 0xFF 0 0 (by decide) (by decide)
      (by decide)).2 rfl).1.trans (by decide)⟩

/-- C6 at the failing input: at depth 3 `Color(0, 1, 0)` is 0x008000, with bit
15 set by the low bit of green, and `setPixelColor(0, 0, 1, 0)` stores the
bytes 0x00, 0x80, 0x00, whose middle byte is not in 0..127. -/
theorem Color_depth3_low_bit_leaks :
    Color (fixture 3 1 1 (some [0, 0, 0])) 0 1 0 = 0x008000 ∧
    (0x008000).testBit 15 = true ∧
    (setPixelColorRGB Target.avr (fixture 3 1 1 (some [0, 0, 0])) 0 0 1 0).map
        LPD8806VD.pixels = some (some [0x00, 0x80, 0x00]) ∧
    (setPixelColorRGB Target.generic (fixture 3 1 1 (some [0, 0, 0])) 0 0 1 0).map
        LPD8806VD.pixels = some (some [0x00, 0x80, 0x00]) := by
  decide

/-! ## Strip length and latch bytes -/

/-- C2 at the failing input: `updateLength(8161)` leaves `latchBytes` at 0 on
both targets, while ceil(8161 / 32) is 256. -/
theorem updateLength_latchBytes_wraps :
    (updateLength Target.avr (fixture 3 0 0 none) 8161).map LPD8806VD.latchBytes = some 0 ∧
    (updateLength Target.generic (fixture 3 0 0 none) 8161).map LPD8806VD.latchBytes
      = some 0 ∧
    (8161 + 31) / 32 = 256 := by
  decide

/-- Up to 8160 LEDs the latch count is ceil(n / 32) on both targets. -/
theorem updateLength_latchBytes_small (t : Target) (s s1 : LPD8806VD) (n : Nat)
    (hn : n ≤ 8160) (h : updateLength t s n = some s1) :
    s1.latchBytes = (n + 31) / 32 := by
  have hw : t.wrapInt (n + 31) = n + 31 := by
    cases t
    · simp only [Target.wrapInt]; omega
    · rfl
  unfold updateLength clear at h
  simp only [hw] at h
  split at h
  · cases h; simp only []; omega
  · split at h
    · cases h
    · cases h; simp only []; omega

/-! ## Reading pixels back -/

/-- C8: for an index at or beyond `numLEDs`, `getPixelColor` returns 0 in
every state, whatever the buffer is: null, empty or of any content. -/
theorem getPixelColor_out_of_range (t : Target) (s : LPD8806VD) (n : Nat)
    (h : s.numLEDs ≤ n) :
    getPixelColor t s n = some 0 ∧
    ∀ p : Option (List Nat), getPixelColor t { s with pixels := p } n = some 0 := by
  have hlt : ¬ n < s.numLEDs := by omega
  constructor
  · simp [getPixelColor, hlt]
  · intro p
    simp [getPixelColor, hlt]

/-- C8 at a concrete input: index 5 of a 2-LED strip with a null buffer. -/
theorem getPixelColor_out_of_range_witness :
    getPixelColor Target.avr (fixture 3 2 1 none) 5 = some 0 :=
  (getPixelColor_out_of_range Target.avr (fixture 3 2 1 none) 5 (by decide)).1

/-! ## The frame on the wire -/

/-- C1: with depth 1, 2 or 3 and a buffer of at least `numLEDs * depth` bytes,
`show()` transmits exactly, through the primitive of the selected mode, for
each pixel 0 .. numLEDs - 1 in ascending order the bytes G|0x80, R|0x80, B|0x80
of its decoded components and then `latchBytes` bytes 0x00: the stream has
length `numLEDs * 3 + latchBytes`, every colour byte is at least 0x80 and every
latch byte is 0x00. -/
theorem showFrame_stream (s : LPD8806VD) (buf : List Nat)
    (hd : s.colorDepth = 1 ∨ s.colorDepth = 2 ∨ s.colorDepth = 3)
    (hp : s.pixels = some buf) (hb : ∀ x ∈ buf, x < 256)
    (hlen : s.numLEDs * s.colorDepth ≤ buf.length) :
    ∃ ev, showFrame s = some ev ∧
      ev = (frameBytes s buf).map (sendByte s) ∧
      wireBytes ev = frameBytes s buf ∧
      (∀ n, n < s.numLEDs →
        (frameBytes s buf)[3 * n]? = some ((storedGRB s buf n).1 ||| 0x80) ∧
        (frameBytes s buf)[3 * n + 1]? = some ((storedGRB s buf n).2.1 ||| 0x80) ∧
        (frameBytes s buf)[3 * n + 2]? = some ((storedGRB s buf n).2.2 ||| 0x80)) ∧
      (frameBytes s buf).length = s.numLEDs * 3 + s.latchBytes ∧
      (∀ k x, k < s.numLEDs * 3 → (frameBytes s buf)[k]? = some x → 0x80 ≤ x ∧ x < 256) ∧
      (∀ k, s.numLEDs * 3 ≤ k → k < s.numLEDs * 3 + s.latchBytes →
        (frameBytes s buf)[k]? = some 0) := by
  refine ⟨_, showFrame_eq s buf hd hp hb hlen, rfl, wireBytes_map_sendByte s _, ?_,
    frameBytes_length s buf, ?_, frameBytes_latch s buf⟩
  · intro n hn
    have h0 := frameBytes_pixel s buf n 0 hn (by omega)
    have h1 := frameBytes_pixel s buf n 1 hn (by omega)
    have h2 := frameBytes_pixel s buf n 2 hn (by omega)
    rw [Nat.add_zero] at h0
    rw [Nat.mul_comm 3 n, h0, h1, h2]
    simp [pixelWire]
  · intro k x hk hx
    have hn : k / 3 < s.numLEDs := by omega
    have hj : k % 3 < 3 := Nat.mod_lt _ (by norm_num)
    have hk3 : k = k / 3 * 3 + k % 3 := by omega
    rw [hk3, frameBytes_pixel s buf (k / 3) (k % 3) hn hj] at hx
    obtain ⟨hg, hr, hbl⟩ := storedGRB_lt s buf (k / 3) hb
    have hcases : k % 3 = 0 ∨ k % 3 = 1 ∨ k % 3 = 2 := by omega
    rcases hcases with h | h | h <;>
      · rw [h] at hx
        simp only [pixelWire, List.getElem?_cons_zero, List.getElem?_cons_succ,
          Option.some.injEq] at hx
        rw [lor_0x80] at hx
        omega

/-- C1 at a concrete input: a 2-LED strip at depth 1 with one latch byte. -/
theorem showFrame_stream_witness :
    showFrame (fixture 1 2 1 (some [0xE5, 0x03])) =
      some ((frameBytes (fixture 1 2 1 (some [0xE5, 0x03])) [0xE5, 0x03]).map
        (sendByte (fixture 1 2 1 (some [0xE5, 0x03])))) ∧
    frameBytes (fixture 1 2 1 (some [0xE5, 0x03])) [0xE5, 0x03] =
      [0x90, 0xF0, 0xA0, 0x80, 0x80, 0xE0, 0x00] :=
  ⟨(showFrame_stream (fixture 1 2 1 (some [0xE5, 0x03])) [0xE5, 0x03] (Or.inl rfl) rfl
      (by decide) (by decide)).elim (fun _ h => h.2.1 ▸ h.1),
   by decide⟩

/-- C3: for depth 1, 2 or 3, an index below `numLEDs` and r, g, b in 0..255,
after `setPixelColor(n, r, g, b)` the bytes `show()` transmits at stream
positions 3n, 3n+1, 3n+2 are `0x80 | (T(g) >> 1)`, `0x80 | (T(r) >> 1)` and
`0x80 | (T(b) >> 1)`, where T keeps the bits the depth stores. -/
theorem setPixelColor_then_show (t : Target) (s : LPD8806VD) (buf : List Nat)
    (n r g b : Nat)
    (hd : s.colorDepth = 1 ∨ s.colorDepth = 2 ∨ s.colorDepth = 3)
    (hp : s.pixels = some buf) (hbuf : ∀ x ∈ buf, x < 256)
    (hlen : s.numLEDs * s.colorDepth ≤ buf.length) (hsz : buf.length ≤ t.sizeMax)
    (hn : n < s.numLEDs) (hr : r < 256) (hg : g < 256) (hb : b < 256) :
    ∃ s1 ev, setPixelColorRGB t s n r g b = some s1 ∧ showFrame s1 = some ev ∧
      (wireBytes ev)[3 * n]? = some (0x80 ||| ((g &&& maskG s.colorDepth) >>> 1)) ∧
      (wireBytes ev)[3 * n + 1]? = some (0x80 ||| ((r &&& maskR s.colorDepth) >>> 1)) ∧
      (wireBytes ev)[3 * n + 2]? = some (0x80 ||| ((b &&& maskB s.colorDepth) >>> 1)) := by
  have ho := pixel_offset_lt s buf n hlen hn
  have hlen1 : (putPixel s.colorDepth buf n (Color s r g b)).length = buf.length :=
    putPixel_length _ _ _ _
  refine ⟨_, _, setPixelColor_eq t s buf n (Color s r g b) hd hp hlen hsz hn,
    showFrame_eq _ (putPixel s.colorDepth buf n (Color s r g b)) hd rfl
      (putPixel_bytes _ _ _ _ hbuf) (by rw [hlen1]; exact hlen), ?_⟩
  rw [wireBytes_map_sendByte]
  have h0 := frameBytes_pixel { s with pixels := some (putPixel s.colorDepth buf n
    (Color s r g b)) } (putPixel s.colorDepth buf n (Color s r g b)) n 0 hn (by omega)
  have h1 := frameBytes_pixel { s with pixels := some (putPixel s.colorDepth buf n
    (Color s r g b)) } (putPixel s.colorDepth buf n (Color s r g b)) n 1 hn (by omega)
  have h2 := frameBytes_pixel { s with pixels := some (putPixel s.colorDepth buf n
    (Color s r g b)) } (putPixel s.colorDepth buf n (Color s r g b)) n 2 hn (by omega)
  have hw := pixelWire_after_Color s { s with pixels := some (putPixel s.colorDepth buf n
    (Color s r g b)) } buf n r g b hd rfl ho hr hg hb
  rw [Nat.add_zero] at h0
  rw [Nat.mul_comm 3 n, h0, h1, h2, hw]
  simp

/-- C3 at the concrete input of the specification: depth 3, a 1-LED strip,
`setPixelColor(0, 255, 128, 0)` then `show()` puts exactly 0xC0, 0xFF, 0x80,
0x00 on the wire. -/
theorem setPixelColor_then_show_witness :
    ((setPixelColorRGB Target.avr (fixture 3 1 1 (some [0, 0, 0])) 0 255 128 0).bind
        showFrame).map wireBytes = some [0xC0, 0xFF, 0x80, 0x00] ∧
    ∃ s1 ev, setPixelColorRGB Target.avr (fixture 3 1 1 (some [0, 0, 0])) 0 255 128 0
        = some s1 ∧ showFrame s1 = some ev ∧
      (wireBytes ev)[3 * 0]? = some (0x80 ||| ((128 &&& maskG 3) >>> 1)) ∧
      (wireBytes ev)[3 * 0 + 1]? = some (0x80 ||| ((255 &&& maskR 3) >>> 1)) ∧
      (wireBytes ev)[3 * 0 + 2]? = some (0x80 ||| ((0 &&& maskB 3) >>> 1)) :=
  ⟨by decide,
   setPixelColor_then_show Target.avr (fixture 3 1 1 (some [0, 0, 0])) [0, 0, 0] 0 255 128 0
    (Or.inr (Or.inr rfl)) rfl (by decide) (by decide) (by decide) (by decide) (by decide)
    (by decide) (by decide)⟩

/-- C7: for depth 1, 2 or 3, every buffer content and every n below `numLEDs`,
`getPixelColor(n)` is `Color((R << 1) mod 256, (G << 1) mod 256,
(B << 1) mod 256)` at the current depth, where (G, R, B) are the components
decoded from the stored bytes of pixel n by the rules `show()` uses. -/
theorem getPixelColor_repacks (t : Target) (s : LPD8806VD) (buf : List Nat) (n : Nat)
    (hd : s.colorDepth = 1 ∨ s.colorDepth = 2 ∨ s.colorDepth = 3)
    (hp : s.pixels = some buf) (hb : ∀ x ∈ buf, x < 256)
    (hlen : s.numLEDs * s.colorDepth ≤ buf.length) (hsz : buf.length ≤ t.sizeMax)
    (hn : n < s.numLEDs) :
    getPixelColor t s n =
      some (Color s (((storedGRB s buf n).2.1 <<< 1) % 256)
        (((storedGRB s buf n).1 <<< 1) % 256) (((storedGRB s buf n).2.2 <<< 1) % 256)) := by
  have ho := pixel_offset_lt s buf n hlen hn
  have hw : t.wrapInt (n * s.colorDepth) = n * s.colorDepth :=
    wrapInt_of_le t _ (by rw [Nat.add_mul] at ho; omega)
  simp only [getPixelColor, hn, if_true, hw, readGRB_eq s buf n hd hp hb ho,
    Option.bind_eq_bind, Option.some_bind, Option.pure_def]

/-- C7 at a concrete input: pixel 1 of a 2-LED strip at depth 3 holding the
bytes 0x40, 0x7F, 0x80 reads back as `Color(0xFE, 0x80, 0x00)`. -/
theorem getPixelColor_repacks_witness :
    getPixelColor Target.avr (fixture 3 2 1 (some [0, 0, 0, 0x40, 0x7F, 0x80])) 1 =
      some (Color (fixture 3 2 1 (some [0, 0, 0, 0x40, 0x7F, 0x80])) 0xFE 0x80 0x00) :=
  (getPixelColor_repacks Target.avr (fixture 3 2 1 (some [0, 0, 0, 0x40, 0x7F, 0x80]))
    [0, 0, 0, 0x40, 0x7F, 0x80] 1 (Or.inr (Or.inr rfl)) rfl (by decide) (by decide)
    (by decide) (by decide)).trans (by decide)

/-! ## Clearing and resizing -/

/-- C9: `clear()` zero-fills exactly the first `numLEDs * colorDepth` bytes of
the buffer, keeps every byte at or beyond that offset, keeps `numLEDs`, the
depth, the latch count, the mode and the begun flag, and with a null buffer
does nothing. -/
theorem clear_frame (t : Target) (s : LPD8806VD) :
    (s.pixels = none → clear t s = some s) ∧
    (∀ buf, s.pixels = some buf → s.numLEDs * s.colorDepth ≤ buf.length →
      buf.length ≤ t.sizeMax →
      ∃ buf1, clear t s = some { s with pixels := some buf1 } ∧
        buf1.length = buf.length ∧
        (∀ i, i < s.numLEDs * s.colorDepth → buf1[i]? = some 0) ∧
        (∀ i, s.numLEDs * s.colorDepth ≤ i → buf1[i]? = buf[i]?)) := by
  constructor
  · intro hp
    simp [clear, hp]
  · intro buf hp hlen hsz
    exact ⟨_, clear_eq t s buf hp hlen hsz, cleared_length buf _ hlen,
      fun i hi => cleared_low buf _ i hi, fun i hi => cleared_high buf _ i hi⟩

/-- C9 at concrete inputs: a null buffer, and a 1-LED strip at depth 2 whose
buffer has a third byte. -/
theorem clear_frame_witness :
    clear Target.avr (fixture 2 1 1 none) = some (fixture 2 1 1 none) ∧
    clear Target.avr (fixture 2 1 1 (some [5, 6, 7])) = some (fixture 2 1 1 (some [0, 0, 7])) ∧
    ∃ buf1, clear Target.avr (fixture 2 1 1 (some [5, 6, 7])) =
        some { fixture 2 1 1 (some [5, 6, 7]) with pixels := some buf1 } ∧
      buf1.length = [5, 6, 7].length ∧
      (∀ i, i < 1 * 2 → buf1[i]? = some 0) ∧
      (∀ i, 1 * 2 ≤ i → buf1[i]? = [5, 6, 7][i]?) :=
  ⟨(clear_frame Target.avr (fixture 2 1 1 none)).1 rfl, by decide,
   (clear_frame Target.avr (fixture 2 1 1 (some [5, 6, 7]))).2 [5, 6, 7] rfl (by decide)
    (by decide)⟩

/-- C10: with a non-null buffer of at least `n * colorDepth` bytes,
`updateLength(n)` makes `numPixels()` return n and zero-fills the first
`n * colorDepth` bytes, computed from the new length, so that at depth 1, 2 or
3 every pixel below n reads back as 0; the depth, the begun flag, the mode with
its pins and the buffer bytes beyond that region stay as they were. -/
theorem updateLength_clears (t : Target) (s : LPD8806VD) (buf : List Nat) (n : Nat)
    (hp : s.pixels = some buf) (hlen : n * s.colorDepth ≤ buf.length)
    (hsz : buf.length ≤ t.sizeMax) :
    ∃ s1 buf1, updateLength t s n = some s1 ∧ numPixels s1 = n ∧
      s1.pixels = some buf1 ∧ buf1.length = buf.length ∧
      (∀ i, i < n * s.colorDepth → buf1[i]? = some 0) ∧
      (∀ i, n * s.colorDepth ≤ i → buf1[i]? = buf[i]?) ∧
      s1.colorDepth = s.colorDepth ∧ s1.begun = s.begun ∧
      s1.hardwareSPI = s.hardwareSPI ∧ s1.datapin = s.datapin ∧ s1.clkpin = s.clkpin ∧
      ((s.colorDepth = 1 ∨ s.colorDepth = 2 ∨ s.colorDepth = 3) →
        ∀ i, i < n → getPixelColor t s1 i = some 0) := by
  have hc := clear_eq t { s with latchBytes := (t.wrapInt (n + 31) / 32) % 256, numLEDs := n }
    buf hp hlen hsz
  refine ⟨_, _, hc, rfl, rfl, cleared_length buf _ hlen, fun i hi => cleared_low buf _ i hi,
    fun i hi => cleared_high buf _ i hi, rfl, rfl, rfl, rfl, rfl, ?_⟩
  intro hd i hi
  exact getPixelColor_zero t _ _ i hd rfl hi (by simp only []; omega)
    (fun j hj => cleared_low buf _ j hj)

/-- C10 at a concrete input: a 3-LED strip at depth 1 shortened to 2 LEDs. -/
theorem updateLength_clears_witness :
    updateLength Target.generic (fixture 1 3 1 (some [9, 8, 7])) 2 =
      some (fixture 1 2 1 (some [0, 0, 7])) ∧
    ∃ s1 buf1, updateLength Target.generic (fixture 1 3 1 (some [9, 8, 7])) 2 = some s1 ∧
      numPixels s1 = 2 ∧ s1.pixels = some buf1 ∧ buf1.length = [9, 8, 7].length ∧
      (∀ i, i < 2 * 1 → buf1[i]? = some 0) ∧
      (∀ i, 2 * 1 ≤ i → buf1[i]? = [9, 8, 7][i]?) ∧
      s1.colorDepth = 1 ∧ s1.begun = false ∧
      s1.hardwareSPI = true ∧ s1.datapin = 0 ∧ s1.clkpin = 0 ∧
      (((1 : Nat) = 1 ∨ (1 : Nat) = 2 ∨ (1 : Nat) = 3) →
        ∀ i, i < 2 → getPixelColor Target.generic s1 i = some 0) :=
  ⟨by decide,
   updateLength_clears Target.generic (fixture 1 3 1 (some [9, 8, 7])) [9, 8, 7] 2 rfl
    (by decide) (by decide)⟩

/-! ## Colour depth -/

/-- C11: after `setColorDepth(d)`, `getColorDepth()` is 1 for d in {1, 8}, 2
for d in {2, 15, 16}, 3 for d in {3, 21, 24} and 0 for every other d; so the
stored depth is at most 3 and `setColorDepth(getColorDepth())` changes
nothing. -/
theorem setColorDepth_normalises (s : LPD8806VD) (d : Nat) :
    getColorDepth (setColorDepth s d) =
      (if d = 1 ∨ d = 8 then 1
       else if d = 2 ∨ d = 15 ∨ d = 16 then 2
       else if d = 3 ∨ d = 21 ∨ d = 24 then 3
       else 0) ∧
    getColorDepth (setColorDepth s d) ≤ 3 ∧
    setColorDepth (setColorDepth s d) (getColorDepth (setColorDepth s d)) =
      setColorDepth s d := by
  unfold setColorDepth getColorDepth
  split <;> simp_all [setColorDepth]

/-- C17: in the disabled state, depth 0, `Color(r, g, b)` and `Color(c)` are 0
and `setPixelColor(n, c)` returns the state as it was, with no buffer byte
written; every unsupported argument of `setColorDepth` leads to that state. -/
theorem disabled_depth (t : Target) (s : LPD8806VD) (hd : s.colorDepth = 0) :
    (∀ r g b, Color s r g b = 0) ∧ (∀ c, ColorPacked s c = 0) ∧
    (∀ n c, setPixelColor t s n c = some s) ∧
    (∀ s0 d, d ≠ 1 → d ≠ 2 → d ≠ 3 → d ≠ 8 → d ≠ 15 → d ≠ 16 → d ≠ 21 → d ≠ 24 →
      (setColorDepth s0 d).colorDepth = 0) := by
  refine ⟨fun r g b => ?_, fun c => ?_, fun n c => ?_, ?_⟩
  · simp [Color, hd]
  · simp [ColorPacked, Color, hd]
  · simp [setPixelColor, hd]
  · intro s0 d h1 h2 h3 h4 h5 h6 h7 h8
    unfold setColorDepth
    split <;> simp_all

/-- C17 at a concrete input: depth 0 reached by `setColorDepth(7)`. -/
theorem disabled_depth_witness :
    (setColorDepth (fixture 3 1 1 (some [1, 2, 3])) 7).colorDepth = 0 ∧
    Color (setColorDepth (fixture 3 1 1 (some [1, 2, 3])) 7) 255 255 255 = 0 ∧
    ColorPacked (setColorDepth (fixture 3 1 1 (some [1, 2, 3])) 7) 0xFFFFFF = 0 ∧
    setPixelColor Target.avr (setColorDepth (fixture 3 1 1 (some [1, 2, 3])) 7) 0 0xFFFFFF =
      some (setColorDepth (fixture 3 1 1 (some [1, 2, 3])) 7) :=
  ⟨rfl,
   (disabled_depth Target.avr (setColorDepth (fixture 3 1 1 (some [1, 2, 3])) 7) rfl).1
     255 255 255,
   (disabled_depth Target.avr (setColorDepth (fixture 3 1 1 (some [1, 2, 3])) 7) rfl).2.1
     0xFFFFFF,
   (disabled_depth Target.avr (setColorDepth (fixture 3 1 1 (some [1, 2, 3])) 7) rfl).2.2.1
     0 0xFFFFFF⟩

/-! ## Widening and read-back: helper lemmas -/

/-- An OR of three fields that occupy disjoint bit ranges is their sum. -/
theorem lor3_eq_add (a b c i j : Nat) (ha : a % 2 ^ i = 0) (hb : b < 2 ^ i)
    (hb2 : b % 2 ^ j = 0) (hc : c < 2 ^ j) (hij : j ≤ i) :
    (a ||| b) ||| c = a + b + c := by
  have hpow : 2 ^ i = 2 ^ j * 2 ^ (i - j) := by
    rw [← Nat.pow_add]; congr 1; omega
  have hab : (a + b) % 2 ^ j = 0 := by
    have h1 : a % 2 ^ j = 0 := by
      have hdvd : 2 ^ j ∣ a :=
        Dvd.dvd.trans ⟨2 ^ (i - j), hpow⟩ (Nat.dvd_of_mod_eq_zero ha)
      exact Nat.mod_eq_zero_of_dvd hdvd
    rw [Nat.add_mod, h1, hb2]
    simp
  rw [lor_eq_add i a b ha hb, lor_eq_add j (a + b) c hab hc]

theorem Color8To16_eq (c8 : Nat) :
    Color8To16 c8 = c8 / 32 % 8 * 4096 + c8 / 4 % 8 * 128 + c8 % 4 * 8 := by
  simp only [Color8To16, land_E0, land_1C, land_03]
  have hx : c8 / 32 % 8 < 8 := Nat.mod_lt _ (by norm_num)
  have hy : c8 / 4 % 8 < 8 := Nat.mod_lt _ (by norm_num)
  have hz : c8 % 4 < 4 := Nat.mod_lt _ (by norm_num)
  generalize c8 / 32 % 8 = x at hx ⊢
  generalize c8 / 4 % 8 = y at hy ⊢
  generalize c8 % 4 = z at hz ⊢
  have e1 : x * 32 % 256 = x * 32 := Nat.mod_eq_of_lt (by omega)
  have e2 : (y * 4) <<< 3 % 256 = y * 32 := by omega
  have e3 : z <<< 6 % 256 = z * 64 := by omega
  rw [e1, e2, e3,
    lor3_eq_add _ _ _ 12 7 (by omega) (by omega) (by omega) (by omega) (by omega)]
  omega

/-- Within the buffer, `getPixelColor` repacks the decoded components. -/
theorem getPixelColor_eq (t : Target) (s : LPD8806VD) (buf : List Nat) (n : Nat)
    (hd : s.colorDepth = 1 ∨ s.colorDepth = 2 ∨ s.colorDepth = 3)
    (hp : s.pixels = some buf) (hb : ∀ x ∈ buf, x < 256)
    (hlen : s.numLEDs * s.colorDepth ≤ buf.length) (hsz : buf.length ≤ t.sizeMax)
    (hn : n < s.numLEDs) :
    getPixelColor t s n =
      some (Color s (((storedGRB s buf n).2.1 <<< 1) % 256)
        (((storedGRB s buf n).1 <<< 1) % 256) (((storedGRB s buf n).2.2 <<< 1) % 256)) := by
  have ho := pixel_offset_lt s buf n hlen hn
  have hw : t.wrapInt (n * s.colorDepth) = n * s.colorDepth :=
    wrapInt_of_le t _ (by rw [Nat.add_mul] at ho; omega)
  simp only [getPixelColor, hn, if_true, hw, readGRB_eq s buf n hd hp hb ho,
    Option.bind_eq_bind, Option.some_bind, Option.pure_def]

/-- Depth 1: repacking the components of a stored byte gives the byte. -/
theorem repack8 (s : LPD8806VD) (c : Nat) (hd : s.colorDepth = 1) (hc : c < 256) :
    Color s ((getRed8 c <<< 1) % 256) ((getGreen8 c <<< 1) % 256)
      ((getBlue8 c <<< 1) % 256) = c := by
  rw [Color_depth1 s _ _ _ hd (Nat.mod_lt _ (by norm_num)) (Nat.mod_lt _ (by norm_num))
    (Nat.mod_lt _ (by norm_num)), getRed8_eq, getGreen8_eq, getBlue8_eq]
  omega

/-- Depth 2: repacking the components of a stored 16-bit value gives the
value without bit 15. -/
theorem repack16 (s : LPD8806VD) (c : Nat) (hd : s.colorDepth = 2) :
    Color s ((getRed16 c <<< 1) % 256) ((getGreen16 c <<< 1) % 256)
      ((getBlue16 c <<< 1) % 256) = c % 32768 := by
  rw [Color_depth2 s _ _ _ hd (Nat.mod_lt _ (by norm_num)) (Nat.mod_lt _ (by norm_num))
    (Nat.mod_lt _ (by norm_num)), getRed16_eq, getGreen16_eq, getBlue16_eq]
  omega

/-- Depth 3: repacking three stored bytes gives them without their top bits. -/
theorem repack24 (s : LPD8806VD) (g r b : Nat) (hd : s.colorDepth = 3) :
    Color s ((r <<< 1) % 256) ((g <<< 1) % 256) ((b <<< 1) % 256) =
      g % 128 * 65536 + r % 128 * 256 + b % 128 := by
  rw [Color_depth3 s _ _ _ hd (Nat.mod_lt _ (by norm_num)) (Nat.mod_lt _ (by norm_num))
    (Nat.mod_lt _ (by norm_num))]
  omega

/-- Within the buffer, `getPixelColor` returns `readBack`. -/
theorem getPixelColor_readBack (t : Target) (s : LPD8806VD) (buf : List Nat) (n : Nat)
    (hd : s.colorDepth = 1 ∨ s.colorDepth = 2 ∨ s.colorDepth = 3)
    (hp : s.pixels = some buf) (hb : ∀ x ∈ buf, x < 256)
    (hlen : s.numLEDs * s.colorDepth ≤ buf.length) (hsz : buf.length ≤ t.sizeMax)
    (hn : n < s.numLEDs) :
    getPixelColor t s n = some (readBack s buf n) := by
  rw [getPixelColor_eq t s buf n hd hp hb hlen hsz hn]
  congr 1
  rcases hd with hd | hd | hd
  · simp only [storedGRB, readBack, hd]
    exact repack8 s _ hd (getD_lt buf hb n)
  · simp only [storedGRB, readBack, hd]
    exact repack16 s _ hd
  · simp only [storedGRB, readBack, hd]
    exact repack24 s _ _ _ hd

/-! ## Widening and read-back -/

/-- C12: `Color8To16(c8)` is `((c8 & 0xE0) << 7) | ((c8 & 0x1C) << 5) |
((c8 & 0x03) << 3)`, below 2^15, and for r, g, b in 0..255 widening the depth 1
pack of (r, g, b) gives the depth 2 pack of (r & 0xE0, g & 0xE0, b & 0xC0). -/
theorem Color8To16_layout (s1 s2 : LPD8806VD) (c8 r g b : Nat)
    (h1 : s1.colorDepth = 1) (h2 : s2.colorDepth = 2)
    (hr : r < 256) (hg : g < 256) (hb : b < 256) :
    Color8To16 c8 =
      (((c8 &&& 0xE0) <<< 7) ||| ((c8 &&& 0x1C) <<< 5)) ||| ((c8 &&& 0x03) <<< 3) ∧
    Color8To16 c8 < 2 ^ 15 ∧
    Color8To16 (Color s1 r g b) = Color s2 (r &&& 0xE0) (g &&& 0xE0) (b &&& 0xC0) := by
  refine ⟨?_, ?_, ?_⟩
  · rw [Color8To16_eq, land_E0, land_1C, land_03,
      lor3_eq_add _ _ _ 12 7 (by omega) (by omega) (by omega) (by omega) (by omega)]
    omega
  · rw [Color8To16_eq]; omega
  · rw [Color8To16_eq, Color_depth1 s1 r g b h1 hr hg hb,
      Color_depth2 s2 _ _ _ h2 (by rw [land_E0]; omega) (by rw [land_E0]; omega)
        (by rw [land_C0]; omega), land_E0, land_E0, land_C0]
    omega

/-- C12 at a concrete input: the depth 1 pack of (0xFF, 0x20, 0x40), 0xE5,
widens to 0x7088. -/
theorem Color8To16_layout_witness :
    Color8To16 0xE5 = 0x7088 ∧
    Color8To16 (Color (fixture 1 1 1 none) 0xFF 0x20 0x40) =
      Color (fixture 2 1 1 none) (0xFF &&& 0xE0) (0x20 &&& 0xE0) (0x40 &&& 0xC0) :=
  ⟨(Color8To16_layout (fixture 1 1 1 none) (fixture 2 1 1 none) 0xE5 0xFF 0x20 0x40 rfl rfl
      (by decide) (by decide) (by decide)).1.trans (by decide),
   (Color8To16_layout (fixture 1 1 1 none) (fixture 2 1 1 none) 0xE5 0xFF 0x20 0x40 rfl rfl
      (by decide) (by decide) (by decide)).2.2⟩

/-- C18: `getPixelColor` is not a faithful inverse of `setPixelColor`: at depth
3, after `setPixelColor(0, Color(0, 1, 0))` on a 1-LED strip, `getPixelColor(0)`
returns 0 while `Color(0, 1, 0)` is 0x8000. -/
theorem getPixelColor_not_inverse :
    ∃ (s s1 : LPD8806VD) (n r g b v : Nat),
      (s.colorDepth = 1 ∨ s.colorDepth = 2 ∨ s.colorDepth = 3) ∧ n < s.numLEDs ∧
      r < 256 ∧ g < 256 ∧ b < 256 ∧
      setPixelColor Target.avr s n (Color s r g b) = some s1 ∧
      getPixelColor Target.avr s1 n = some v ∧ v ≠ Color s r g b :=
  ⟨fixture 3 1 1 (some [0, 0, 0]), fixture 3 1 1 (some [0x00, 0x80, 0x00]), 0, 0, 1, 0, 0,
    by decide⟩

/-- C19: at depths 1 and 2 the read-back is exact.  For any stored bytes
`getPixelColor(n)` returns the stored byte at depth 1 and the stored
big-endian 16-bit value with bit 15 cleared at depth 2; and after
`setPixelColor(n, r, g, b)` it returns `Color(r, g, b)`. -/
theorem readback_exact (t : Target) (s : LPD8806VD) (buf : List Nat) (n : Nat)
    (hp : s.pixels = some buf) (hbuf : ∀ x ∈ buf, x < 256)
    (hlen : s.numLEDs * s.colorDepth ≤ buf.length) (hsz : buf.length ≤ t.sizeMax)
    (hn : n < s.numLEDs) :
    (s.colorDepth = 1 →
      getPixelColor t s n = some (buf.getD n 0) ∧
      ∀ r g b, r < 256 → g < 256 → b < 256 →
        ∃ s1, setPixelColorRGB t s n r g b = some s1 ∧
          getPixelColor t s1 n = some (Color s r g b)) ∧
    (s.colorDepth = 2 →
      getPixelColor t s n =
        some ((buf.getD (n * 2) 0 * 256 + buf.getD (n * 2 + 1) 0) &&& 0x7FFF) ∧
      ∀ r g b, r < 256 → g < 256 → b < 256 →
        ∃ s1, setPixelColorRGB t s n r g b = some s1 ∧
          getPixelColor t s1 n = some (Color s r g b)) := by
  have hlen1 : ∀ c, (putPixel s.colorDepth buf n c).length = buf.length :=
    fun c => putPixel_length _ _ _ _
  have ho := pixel_offset_lt s buf n hlen hn
  constructor
  · intro hd
    have hd3 : s.colorDepth = 1 ∨ s.colorDepth = 2 ∨ s.colorDepth = 3 := Or.inl hd
    refine ⟨?_, fun r g b hr hg hb => ⟨_, setPixelColor_eq t s buf n _ hd3 hp hlen hsz hn, ?_⟩⟩
    · rw [getPixelColor_readBack t s buf n hd3 hp hbuf hlen hsz hn]
      simp only [readBack, hd]
    · rw [getPixelColor_readBack t
        { s with pixels := some (putPixel s.colorDepth buf n (Color s r g b)) }
        (putPixel s.colorDepth buf n (Color s r g b)) n hd3 rfl
        (putPixel_bytes _ _ _ _ hbuf) (by rw [hlen1]; exact hlen) (by rw [hlen1]; exact hsz) hn]
      rw [hd] at ho
      have h0 : n < buf.length := by omega
      have hc : Color s r g b < 256 := by rw [Color_depth1 s r g b hd hr hg hb]; omega
      simp [readBack, putPixel, hd, h0, Nat.mod_eq_of_lt hc]
  · intro hd
    have hd3 : s.colorDepth = 1 ∨ s.colorDepth = 2 ∨ s.colorDepth = 3 := Or.inr (Or.inl hd)
    refine ⟨?_, fun r g b hr hg hb => ⟨_, setPixelColor_eq t s buf n _ hd3 hp hlen hsz hn, ?_⟩⟩
    · rw [getPixelColor_readBack t s buf n hd3 hp hbuf hlen hsz hn]
      simp only [readBack, hd]
      rw [show (0x7FFF : Nat) = 2 ^ 15 - 1 by norm_num, Nat.and_pow_two_sub_one_eq_mod]
    · rw [getPixelColor_readBack t
        { s with pixels := some (putPixel s.colorDepth buf n (Color s r g b)) }
        (putPixel s.colorDepth buf n (Color s r g b)) n hd3 rfl
        (putPixel_bytes _ _ _ _ hbuf) (by rw [hlen1]; exact hlen) (by rw [hlen1]; exact hsz) hn]
      rw [hd] at ho
      have h0 : n * 2 < buf.length := by omega
      have h1 : n * 2 + 1 < buf.length := by omega
      have hc : Color s r g b < 32768 := by rw [Color_depth2 s r g b hd hr hg hb]; omega
      simp only [readBack, putPixel, hd]
      simp [h0, h1]
      omega

/-- C19 at concrete inputs: a stored byte at depth 1, a stored 16-bit value
with bit 15 set at depth 2. -/
theorem readback_exact_witness :
    getPixelColor Target.avr (fixture 1 2 1 (some [0xE5, 0x03])) 1 = some 0x03 ∧
    getPixelColor Target.avr (fixture 2 1 1 (some [0xFF, 0xFF])) 0 = some 0x7FFF :=
  ⟨(((readback_exact Target.avr (fixture 1 2 1 (some [0xE5, 0x03])) [0xE5, 0x03] 1 rfl
      (by decide) (by decide) (by decide) (by decide)).1 rfl).1).trans (by decide),
   (((readback_exact Target.avr (fixture 2 1 1 (some [0xFF, 0xFF])) [0xFF, 0xFF] 0 rfl
      (by decide) (by decide) (by decide) (by decide)).2 rfl).1).trans (by decide)⟩

/-! ## Staying inside the buffer: helper lemmas -/

theorem readGRB_isSome (s : LPD8806VD) (buf : List Nat) (i : Nat)
    (hd : s.colorDepth = 1 ∨ s.colorDepth = 2 ∨ s.colorDepth = 3)
    (hp : s.pixels = some buf) (hi : (i + 1) * s.colorDepth ≤ buf.length) :
    ∃ v, readGRB s (i * s.colorDepth) = some v := by
  rcases hd with hd | hd | hd
  · rw [hd] at hi
    simp [readGRB, hd, rd_some s buf i hp (by omega)]
  · rw [hd] at hi
    simp [readGRB, hd, rd_some s buf (i * 2) hp (by omega),
      rd_some s buf (i * 2 + 1) hp (by omega)]
  · rw [hd] at hi
    simp [readGRB, hd, rd_some s buf (i * 3) hp (by omega),
      rd_some s buf (i * 3 + 1) hp (by omega), rd_some s buf (i * 3 + 2) hp (by omega)]

theorem showPixels_isSome (s : LPD8806VD) (buf : List Nat)
    (hd : s.colorDepth = 1 ∨ s.colorDepth = 2 ∨ s.colorDepth = 3)
    (hp : s.pixels = some buf) :
    ∀ (k i0 : Nat), (i0 + k) * s.colorDepth ≤ buf.length →
      ∃ ev, showPixels s k (i0 * s.colorDepth) = some ev := by
  intro k
  induction k with
  | zero => intro i0 _; exact ⟨[], rfl⟩
  | succ k ih =>
    intro i0 hlen
    have h1 : (i0 + 1) * s.colorDepth ≤ buf.length := by
      have : (i0 + 1) * s.colorDepth ≤ (i0 + (k + 1)) * s.colorDepth :=
        Nat.mul_le_mul_right _ (by omega)
      omega
    have h2 : i0 * s.colorDepth + s.colorDepth = (i0 + 1) * s.colorDepth := by
      rw [Nat.add_mul, Nat.one_mul]
    have h3 : (i0 + 1 + k) * s.colorDepth ≤ buf.length := by
      have : i0 + 1 + k = i0 + (k + 1) := by omega
      rw [this]; exact hlen
    obtain ⟨⟨g, r, b⟩, hv⟩ := readGRB_isSome s buf i0 hd hp h1
    obtain ⟨rest, hrest⟩ := ih (i0 + 1) h3
    simp [showPixels, hv, h2, hrest]

/-- With depth 1, 2 or 3 and a buffer that holds the strip, no operation
leaves the buffer. -/
theorem ops_in_bounds (t : Target) (s : LPD8806VD) (buf : List Nat)
    (hd : s.colorDepth = 1 ∨ s.colorDepth = 2 ∨ s.colorDepth = 3)
    (hp : s.pixels = some buf) (hlen : s.numLEDs * s.colorDepth ≤ buf.length)
    (hsz : buf.length ≤ t.sizeMax) :
    (∃ s1, clear t s = some s1) ∧ (∃ ev, showFrame s = some ev) ∧
    (∀ n, ∃ v, getPixelColor t s n = some v) ∧
    (∀ n c, n < s.numLEDs → ∃ s1, setPixelColor t s n c = some s1) := by
  refine ⟨⟨_, clear_eq t s buf hp hlen hsz⟩, ?_, ?_, ?_⟩
  · obtain ⟨ev, hev⟩ := showPixels_isSome s buf hd hp s.numLEDs 0 (by simpa using hlen)
    rw [Nat.zero_mul] at hev
    simp [showFrame, hev]
  · intro n
    by_cases hn : n < s.numLEDs
    · have ho := pixel_offset_lt s buf n hlen hn
      have hw : t.wrapInt (n * s.colorDepth) = n * s.colorDepth :=
        wrapInt_of_le t _ (by rw [Nat.add_mul] at ho; omega)
      obtain ⟨⟨g, r, b⟩, hv⟩ := readGRB_isSome s buf n hd hp ho
      simp [getPixelColor, hn, hw, hv]
    · exact ⟨0, by simp [getPixelColor, hn]⟩
  · intro n c hn
    exact ⟨_, setPixelColor_eq t s buf n c hd hp hlen hsz hn⟩

theorem setColorDepth_fields (s : LPD8806VD) (d : Nat) :
    (setColorDepth s d).pixels = s.pixels ∧ (setColorDepth s d).numLEDs = s.numLEDs ∧
    (setColorDepth s d).latchBytes = s.latchBytes ∧ (setColorDepth s d).begun = s.begun ∧
    (setColorDepth s d).hardwareSPI = s.hardwareSPI := by
  unfold setColorDepth
  split <;> exact ⟨rfl, rfl, rfl, rfl, rfl⟩

/-! ## Staying inside the buffer -/

/-- C13: with depth 1, 2 or 3 and a buffer of at least `numLEDs * colorDepth`
bytes, `clear()`, `show()`, `getPixelColor(n)` for any n and
`setPixelColor(n, c)` for n below `numLEDs` never take the out-of-bounds
branch; the same holds when the buffer is cut down to exactly its first
`numLEDs * colorDepth` bytes, so every index they touch is below that. -/
theorem accesses_in_bounds (t : Target) (s : LPD8806VD) (buf : List Nat)
    (hd : s.colorDepth = 1 ∨ s.colorDepth = 2 ∨ s.colorDepth = 3)
    (hp : s.pixels = some buf) (hlen : s.numLEDs * s.colorDepth ≤ buf.length)
    (hsz : buf.length ≤ t.sizeMax) :
    ((∃ s1, clear t s = some s1) ∧ (∃ ev, showFrame s = some ev) ∧
      (∀ n, ∃ v, getPixelColor t s n = some v) ∧
      (∀ n c, n < s.numLEDs → ∃ s1, setPixelColor t s n c = some s1)) ∧
    ((∃ s1, clear t { s with pixels := some (buf.take (s.numLEDs * s.colorDepth)) }
        = some s1) ∧
      (∃ ev, showFrame { s with pixels := some (buf.take (s.numLEDs * s.colorDepth)) }
        = some ev) ∧
      (∀ n, ∃ v, getPixelColor t
        { s with pixels := some (buf.take (s.numLEDs * s.colorDepth)) } n = some v) ∧
      (∀ n c, n < s.numLEDs → ∃ s1, setPixelColor t
        { s with pixels := some (buf.take (s.numLEDs * s.colorDepth)) } n c = some s1)) := by
  have hl : (buf.take (s.numLEDs * s.colorDepth)).length = s.numLEDs * s.colorDepth := by
    rw [List.length_take]; omega
  exact ⟨ops_in_bounds t s buf hd hp hlen hsz,
    ops_in_bounds t { s with pixels := some (buf.take (s.numLEDs * s.colorDepth)) }
      (buf.take (s.numLEDs * s.colorDepth)) hd rfl (by rw [hl]) (by rw [hl]; omega)⟩

/-- C13 at a concrete input: a 2-LED strip at depth 2 in a 5-byte buffer. -/
theorem accesses_in_bounds_witness :
    ((∃ s1, clear Target.avr (fixture 2 2 1 (some [1, 2, 3, 4, 5])) = some s1) ∧
      (∃ ev, showFrame (fixture 2 2 1 (some [1, 2, 3, 4, 5])) = some ev) ∧
      (∀ n, ∃ v, getPixelColor Target.avr (fixture 2 2 1 (some [1, 2, 3, 4, 5])) n = some v) ∧
      (∀ n c, n < 2 →
        ∃ s1, setPixelColor Target.avr (fixture 2 2 1 (some [1, 2, 3, 4, 5])) n c = some s1)) ∧
    showFrame (fixture 2 2 1 (some ([1, 2, 3, 4, 5].take (2 * 2)))) =
      some [Event.spiTransfer 0xA0, Event.spiTransfer 0x80, Event.spiTransfer 0x88,
        Event.spiTransfer 0xE0, Event.spiTransfer 0x80, Event.spiTransfer 0x90,
        Event.spiTransfer 0x00] :=
  ⟨(accesses_in_bounds Target.avr (fixture 2 2 1 (some [1, 2, 3, 4, 5])) [1, 2, 3, 4, 5]
      (Or.inr (Or.inl rfl)) rfl (by decide) (by decide)).1,
   by decide⟩

/-- C14 as stated fails: a 1-LED strip at depth 1 whose buffer has exactly 1
byte, switched to depth 3, makes `show()` and `getPixelColor(0)` read past the
end of the buffer. -/
theorem setColorDepth_wider_counterexample :
    (fixture 1 1 1 (some [0x12])).colorDepth = 1 ∧
    [0x12].length = (fixture 1 1 1 (some [0x12])).numLEDs * 1 ∧
    (setColorDepth (fixture 1 1 1 (some [0x12])) 3).pixels = some [0x12] ∧
    showFrame (setColorDepth (fixture 1 1 1 (some [0x12])) 3) = none ∧
    getPixelColor Target.avr (setColorDepth (fixture 1 1 1 (some [0x12])) 3) 0 = none ∧
    getPixelColor Target.generic (setColorDepth (fixture 1 1 1 (some [0x12])) 3) 0 = none := by
  decide

/-- C14 amended: for a buffer of exactly `numLEDs * colorDepth` bytes,
`setColorDepth(d2)` leaves the buffer and the length as they were for every
d2; and when d2 is supported and the strip at the new byte width needs no more
bytes than the buffer has (a width not larger than the current one, or an
empty strip), `getPixelColor(n)` for n below `numLEDs` and `show()` return
values without leaving the buffer. -/
theorem setColorDepth_keeps_buffer (t : Target) (s : LPD8806VD) (buf : List Nat) (d2 : Nat)
    (hp : s.pixels = some buf) (hexact : buf.length = s.numLEDs * s.colorDepth)
    (hsz : buf.length ≤ t.sizeMax) :
    (setColorDepth s d2).pixels = some buf ∧
    (setColorDepth s d2).numLEDs = s.numLEDs ∧
    (((setColorDepth s d2).colorDepth = 1 ∨ (setColorDepth s d2).colorDepth = 2 ∨
        (setColorDepth s d2).colorDepth = 3) →
      s.numLEDs * (setColorDepth s d2).colorDepth ≤ s.numLEDs * s.colorDepth →
      (∀ n, n < s.numLEDs → ∃ v, getPixelColor t (setColorDepth s d2) n = some v) ∧
      (∃ ev, showFrame (setColorDepth s d2) = some ev)) := by
  obtain ⟨h1, h2, _, _, _⟩ := setColorDepth_fields s d2
  refine ⟨h1.trans hp, h2, fun hd2 hle => ?_⟩
  have hfit : (setColorDepth s d2).numLEDs * (setColorDepth s d2).colorDepth ≤ buf.length := by
    rw [h2, hexact]
    exact hle
  have h := ops_in_bounds t (setColorDepth s d2) buf hd2 (h1.trans hp) hfit hsz
  exact ⟨fun n _ => h.2.2.1 n, h.2.1⟩

/-- C14 amended, at a concrete input: a 1-LED strip at depth 3 with a 3-byte
buffer, switched to 16-bit colour. -/
theorem setColorDepth_keeps_buffer_witness :
    (setColorDepth (fixture 3 1 1 (some [0x40, 0x7F, 0x80])) 16).pixels =
      some [0x40, 0x7F, 0x80] ∧
    (∀ n, n < 1 → ∃ v,
      getPixelColor Target.avr (setColorDepth (fixture 3 1 1 (some [0x40, 0x7F, 0x80])) 16) n
        = some v) ∧
    (∃ ev, showFrame (setColorDepth (fixture 3 1 1 (some [0x40, 0x7F, 0x80])) 16) = some ev) :=
  ⟨(setColorDepth_keeps_buffer Target.avr (fixture 3 1 1 (some [0x40, 0x7F, 0x80]))
      [0x40, 0x7F, 0x80] 16 rfl (by decide) (by decide)).1,
   ((setColorDepth_keeps_buffer Target.avr (fixture 3 1 1 (some [0x40, 0x7F, 0x80]))
      [0x40, 0x7F, 0x80] 16 rfl (by decide) (by decide)).2.2
      (Or.inr (Or.inl rfl)) (by decide)).1,
   ((setColorDepth_keeps_buffer Target.avr (fixture 3 1 1 (some [0x40, 0x7F, 0x80]))
      [0x40, 0x7F, 0x80] 16 rfl (by decide) (by decide)).2.2
      (Or.inr (Or.inl rfl)) (by decide)).2⟩

/-! ## Start-up and pin changes: helper lemmas -/

theorem latch_tail_eq (n : Nat) (e : Event) :
    (if n = 0 then [] else List.replicate n e) = List.replicate n e := by
  split
  · next h => rw [h]; rfl
  · rfl

theorem byteEvents_startSPI (s : LPD8806VD) :
    byteEvents (startSPI s) = List.replicate s.latchBytes (Event.spiTransfer 0) := by
  simp [byteEvents, startSPI, latch_tail_eq, Event.wireByte]

theorem byteEvents_startBitbang (s : LPD8806VD) :
    byteEvents (startBitbang s) = List.replicate s.latchBytes (Event.bitBangByte 0) := by
  simp [byteEvents, startBitbang, latch_tail_eq, Event.wireByte]

theorem wireBytes_startSPI (s : LPD8806VD) :
    wireBytes (startSPI s) = List.replicate s.latchBytes 0 := by
  simp [wireBytes, startSPI, latch_tail_eq, Event.wireByte,
    List.filterMap_replicate_of_some]

theorem wireBytes_startBitbang (s : LPD8806VD) :
    wireBytes (startBitbang s) = List.replicate s.latchBytes 0 := by
  simp [wireBytes, startBitbang, latch_tail_eq, Event.wireByte,
    List.filterMap_replicate_of_some]

theorem wr_begun (s s1 : LPD8806VD) (i v : Nat) (h : wr s i v = some s1) :
    s1.begun = s.begun := by
  unfold wr at h
  split at h
  · cases h
  · split at h
    · cases h; rfl
    · cases h

theorem clear_begun (t : Target) (s s1 : LPD8806VD) (h : clear t s = some s1) :
    s1.begun = s.begun := by
  unfold clear at h
  split at h
  · cases h; rfl
  · split at h
    · cases h
    · cases h; rfl

theorem setPixelColor_begun (t : Target) (s s1 : LPD8806VD) (n c : Nat)
    (h : setPixelColor t s n c = some s1) : s1.begun = s.begun := by
  unfold setPixelColor at h
  split at h
  · exact wr_begun _ _ _ _ h
  · simp only [Option.bind_eq_bind, Option.bind_eq_some] at h
    obtain ⟨a, h1, h2⟩ := h
    rw [wr_begun _ _ _ _ h2, wr_begun _ _ _ _ h1]
  · simp only [Option.bind_eq_bind, Option.bind_eq_some] at h
    obtain ⟨a, h1, b, h2, h3⟩ := h
    rw [wr_begun _ _ _ _ h3, wr_begun _ _ _ _ h2, wr_begun _ _ _ _ h1]
  · cases h; rfl

/-! ## Start-up and pin changes -/

/-- C15: `begin()` sends exactly `latchBytes` zero bytes through the primitive
of the selected mode and sets `begun`; when `begun` holds, `updatePins()` runs
the hardware start-up and `updatePins(dpin, cpin)` ends the hardware
peripheral first, if and only if hardware mode was active, and then runs the
software start-up, each sending exactly `latchBytes` zero bytes; when `begun`
does not hold they send nothing; the mode afterwards is hardware, respectively
software; and no operation takes `begun` from true to false. -/
theorem priming_rule (t : Target) (s : LPD8806VD) (dpin cpin : Nat) :
    ((begin s).1 = { s with begun := true } ∧
      byteEvents (begin s).2 = List.replicate s.latchBytes (sendByte s 0) ∧
      wireBytes (begin s).2 = List.replicate s.latchBytes 0) ∧
    ((updatePins s).1.hardwareSPI = true ∧
      (s.begun = true →
        (updatePins s).2 = startSPI (updatePins s).1 ∧
        byteEvents (updatePins s).2 =
          List.replicate s.latchBytes (Event.spiTransfer 0)) ∧
      (s.begun = false → (updatePins s).2 = [])) ∧
    ((updatePinsTo s dpin cpin).1.hardwareSPI = false ∧
      (s.begun = true →
        (updatePinsTo s dpin cpin).2 =
          (if s.hardwareSPI = true then [Event.spiEnd] else []) ++
            startBitbang (updatePinsTo s dpin cpin).1 ∧
        (Event.spiEnd ∈ (updatePinsTo s dpin cpin).2 ↔ s.hardwareSPI = true) ∧
        byteEvents (updatePinsTo s dpin cpin).2 =
          List.replicate s.latchBytes (Event.bitBangByte 0)) ∧
      (s.begun = false → (updatePinsTo s dpin cpin).2 = [])) ∧
    (s.begun = true →
      (begin s).1.begun = true ∧ (updatePins s).1.begun = true ∧
      (updatePinsTo s dpin cpin).1.begun = true ∧
      (∀ d, (setColorDepth s d).begun = true) ∧
      (∀ p, (setBufferPointer s p).begun = true) ∧
      (∀ s1, clear t s = some s1 → s1.begun = true) ∧
      (∀ n s1, updateLength t s n = some s1 → s1.begun = true) ∧
      (∀ n c s1, setPixelColor t s n c = some s1 → s1.begun = true) ∧
      (∀ n r g b s1, setPixelColorRGB t s n r g b = some s1 → s1.begun = true)) := by
  refine ⟨⟨rfl, ?_, ?_⟩, ⟨rfl, ?_, ?_⟩, ⟨rfl, ?_, ?_⟩, ?_⟩
  · cases hm : s.hardwareSPI
    · simp [begin, hm, sendByte, byteEvents_startBitbang]
    · simp [begin, hm, sendByte, byteEvents_startSPI]
  · cases hm : s.hardwareSPI
    · simp [begin, hm, wireBytes_startBitbang]
    · simp [begin, hm, wireBytes_startSPI]
  · intro hb
    have h1 : (updatePins s).2 = startSPI (updatePins s).1 := by simp [updatePins, hb]
    refine ⟨h1, ?_⟩
    rw [h1, byteEvents_startSPI]
    rfl
  · intro hb
    simp [updatePins, hb]
  · intro hb
    have h1 : (updatePinsTo s dpin cpin).2 =
        (if s.hardwareSPI = true then [Event.spiEnd] else []) ++
          startBitbang (updatePinsTo s dpin cpin).1 := by
      simp [updatePinsTo, hb, startBitbang]
    refine ⟨h1, ?_, ?_⟩
    · rw [h1]
      cases hm : s.hardwareSPI <;> simp [startBitbang, latch_tail_eq]
    · rw [h1]
      cases hm : s.hardwareSPI
      · simpa using byteEvents_startBitbang (updatePinsTo s dpin cpin).1
      · have h2 := byteEvents_startBitbang (updatePinsTo s dpin cpin).1
        simp only [byteEvents] at h2 ⊢
        simp only [if_true, List.filter_append, h2]
        simp [Event.wireByte]
        rfl
  · intro hb
    simp [updatePinsTo, hb]
  · intro hb
    refine ⟨rfl, hb, hb, ?_, ?_, ?_, ?_, ?_, ?_⟩
    · intro d
      rw [(setColorDepth_fields s d).2.2.2.1, hb]
    · intro p
      exact hb
    · intro s1 h
      rw [clear_begun t s s1 h, hb]
    · intro n s1 h
      rw [clear_begun t _ s1 h]
      exact hb
    · intro n c s1 h
      rw [setPixelColor_begun t s s1 n c h, hb]
    · intro n r g b s1 h
      rw [setPixelColor_begun t s s1 n _ h, hb]

/-- C15 at concrete inputs: a begun 40-LED strip in hardware mode (2 latch
bytes) is switched to pins 2 and 3, and a strip that is not begun. -/
theorem priming_rule_witness :
    (begin (fixture 3 40 2 none)).2 =
      [Event.spiBegin, Event.spiSetBitOrderMSBFirst, Event.spiSetDataMode0,
        Event.spiSetClockDiv4, Event.spiTransfer 0, Event.spiTransfer 0] ∧
    (updatePinsTo (begin (fixture 3 40 2 none)).1 2 3).2 =
      [Event.spiEnd, Event.pinModeOutput 2, Event.pinModeOutput 3, Event.bitBangByte 0,
        Event.bitBangByte 0] ∧
    byteEvents (updatePinsTo (begin (fixture 3 40 2 none)).1 2 3).2 =
      List.replicate 2 (Event.bitBangByte 0) ∧
    byteEvents (updatePins (begin (fixture 3 40 2 none)).1).2 =
      List.replicate 2 (Event.spiTransfer 0) ∧
    (updatePins (fixture 3 40 2 none)).2 = [] ∧
    (updatePinsTo (fixture 3 40 2 none) 2 3).2 = [] ∧
    (updatePinsTo (begin (fixture 3 40 2 none)).1 2 3).1.begun = true :=
  ⟨by decide, by decide,
   ((priming_rule Target.avr (begin (fixture 3 40 2 none)).1 2 3).2.2.1.2.1 rfl).2.2,
   ((priming_rule Target.avr (begin (fixture 3 40 2 none)).1 2 3).2.1.2.1 rfl).2,
   (priming_rule Target.avr (fixture 3 40 2 none) 2 3).2.1.2.2 rfl,
   (priming_rule Target.avr (fixture 3 40 2 none) 2 3).2.2.1.2.2 rfl,
   ((priming_rule Target.avr (begin (fixture 3 40 2 none)).1 2 3).2.2.2 rfl).2.2.1⟩

/-! ## Construction -/

/-- The constructors without a buffer leave the storage of the object as they
found it. -/
theorem ctorSPINoBuffer_keeps_raw (t : Target) (raw tmp : LPD8806VD) (n depth : Nat) :
    (ctorSPINoBuffer t raw tmp n depth).map Prod.fst = some raw := by
  simp [ctorSPINoBuffer, ctorSPI, updateLength, clear, setColorDepth_fields]

theorem ctorBitbangNoBuffer_keeps_raw (t : Target) (raw tmp : LPD8806VD)
    (n dpin cpin depth : Nat) :
    (ctorBitbangNoBuffer t raw tmp n dpin cpin depth).map Prod.fst = some raw := by
  simp [ctorBitbangNoBuffer, ctorBitbang, updateLength, clear, setColorDepth_fields]

/-- C16 at the failing input: for a global driver object, whose storage is
zero before construction, `LPD8806VD(32, 3)` and `LPD8806VD(32, 2, 3, 3)` leave
every member zero (`numPixels()` is 0, the depth is 0, the latch count is 0,
the mode is software), while the constructors taking a null buffer give 32
LEDs, depth 3, one latch byte and hardware, respectively software, mode. -/
theorem ctor_without_buffer_discards :
    (ctorSPINoBuffer Target.avr zeroStorage zeroStorage 32 3).map Prod.fst =
      some zeroStorage ∧
    (ctorSPI Target.avr zeroStorage 32 none 3).map Prod.fst = some (fixture 3 32 1 none) ∧
    (ctorBitbangNoBuffer Target.avr zeroStorage zeroStorage 32 2 3 3).map Prod.fst =
      some zeroStorage ∧
    (ctorBitbang Target.avr zeroStorage 32 2 3 none 3).map Prod.fst =
      some { colorDepth := 3, numLEDs := 32, latchBytes := 1, pixels := none, clkpin := 3,
             datapin := 2, hardwareSPI := false, begun := false } ∧
    numPixels zeroStorage = 0 ∧ getColorDepth zeroStorage = 0 := by
  decide

/-! ## Writing a pixel back: helper lemmas -/

/-- Writing pixel `n` leaves the decoded components of every other pixel. -/
theorem storedGRB_putPixel_ne (s s1 : LPD8806VD) (buf : List Nat) (n c i : Nat)
    (hs : s1.colorDepth = s.colorDepth) (hne : i ≠ n) :
    storedGRB s1 (putPixel s.colorDepth buf n c) i = storedGRB s1 buf i := by
  unfold storedGRB putPixel
  rw [hs]
  split
  · next hd =>
    have e0 : n ≠ i := fun h => hne h.symm
    simp [hd, List.getElem?_set, e0]
  · next hd =>
    have e0 : n * 2 ≠ i * 2 := by omega
    have e1 : n * 2 ≠ i * 2 + 1 := by omega
    have e2 : n * 2 + 1 ≠ i * 2 := by omega
    have e3 : n * 2 + 1 ≠ i * 2 + 1 := by omega
    simp [hd, List.getElem?_set, e0, e1, e2, e3]
  · next hd =>
    have e0 : n * 3 ≠ i * 3 := by omega
    have e1 : n * 3 ≠ i * 3 + 1 := by omega
    have e2 : n * 3 ≠ i * 3 + 2 := by omega
    have e3 : n * 3 + 1 ≠ i * 3 := by omega
    have e4 : n * 3 + 1 ≠ i * 3 + 1 := by omega
    have e5 : n * 3 + 1 ≠ i * 3 + 2 := by omega
    have e6 : n * 3 + 2 ≠ i * 3 := by omega
    have e7 : n * 3 + 2 ≠ i * 3 + 1 := by omega
    have e8 : n * 3 + 2 ≠ i * 3 + 2 := by omega
    simp [hd, List.getElem?_set, e0, e1, e2, e3, e4, e5, e6, e7, e8]
  · rfl

/-- Writing the same value to the same pixel twice is writing it once. -/
theorem putPixel_idem (d : Nat) (buf : List Nat) (n c : Nat) :
    putPixel d (putPixel d buf n c) n c = putPixel d buf n c := by
  unfold putPixel
  split
  · rw [List.set_set]
  · apply List.ext_getElem?
    intro j
    simp only [List.getElem?_set, List.length_set]
    split_ifs <;> rfl
  · apply List.ext_getElem?
    intro j
    simp only [List.getElem?_set, List.length_set]
    split_ifs <;> rfl
  · split <;> first | rfl | contradiction

/-- The wire bytes of pixel `n` after it is written with its own read-back. -/
theorem pixelWire_writeback (s s1 : LPD8806VD) (buf : List Nat) (n : Nat)
    (hd : s.colorDepth = 1 ∨ s.colorDepth = 2 ∨ s.colorDepth = 3)
    (hs : s1.colorDepth = s.colorDepth) (hb : ∀ x ∈ buf, x < 256)
    (ho : (n + 1) * s.colorDepth ≤ buf.length) :
    pixelWire s1 (putPixel s.colorDepth buf n (readBack s buf n)) n = pixelWire s buf n := by
  unfold pixelWire
  rw [storedGRB_putPixel s s1 buf n _ hd hs ho]
  rcases hd with hd | hd | hd
  · have h0 := getD_lt buf hb n
    simp only [hd, readBack, storedGRB, Nat.mod_eq_of_lt h0]
  · have h0 := getD_lt buf hb (n * 2)
    have h1 := getD_lt buf hb (n * 2 + 1)
    simp only [hd, readBack, storedGRB, getGreen16_eq, getRed16_eq, getBlue16_eq]
    generalize buf.getD (n * 2) 0 = hi at h0 ⊢
    generalize buf.getD (n * 2 + 1) 0 = lo at h1 ⊢
    have e : ((hi * 256 + lo) % 32768) >>> 8 % 256 * 256 + (hi * 256 + lo) % 32768 % 256 =
        (hi * 256 + lo) % 32768 := by omega
    rw [e]
    have e1 : (hi * 256 + lo) % 32768 / 32 % 32 = (hi * 256 + lo) / 32 % 32 := by omega
    have e2 : (hi * 256 + lo) % 32768 / 1024 % 32 = (hi * 256 + lo) / 1024 % 32 := by omega
    have e3 : (hi * 256 + lo) % 32768 % 32 = (hi * 256 + lo) % 32 := by omega
    rw [e1, e2, e3]
  · have h0 := getD_lt buf hb (n * 3)
    have h1 := getD_lt buf hb (n * 3 + 1)
    have h2 := getD_lt buf hb (n * 3 + 2)
    simp only [hd, readBack, storedGRB]
    generalize buf.getD (n * 3) 0 = g at h0 ⊢
    generalize buf.getD (n * 3 + 1) 0 = r at h1 ⊢
    generalize buf.getD (n * 3 + 2) 0 = b at h2 ⊢
    have e0 : (g % 128 * 65536 + r % 128 * 256 + b % 128) >>> 16 % 256 = g % 128 := by omega
    have e1 : (g % 128 * 65536 + r % 128 * 256 + b % 128) >>> 8 % 256 = r % 128 := by omega
    have e2 : (g % 128 * 65536 + r % 128 * 256 + b % 128) % 256 = b % 128 := by omega
    rw [e0, e1, e2, lor_0x80, lor_0x80, lor_0x80, lor_0x80 g, lor_0x80 r, lor_0x80 b]
    simp only [List.cons.injEq, and_true]
    omega

/-- Reading back a pixel that holds its own read-back gives the same value. -/
theorem readBack_writeback (s s1 : LPD8806VD) (buf : List Nat) (n : Nat)
    (hd : s.colorDepth = 1 ∨ s.colorDepth = 2 ∨ s.colorDepth = 3)
    (hs : s1.colorDepth = s.colorDepth) (hb : ∀ x ∈ buf, x < 256)
    (ho : (n + 1) * s.colorDepth ≤ buf.length) :
    readBack s1 (putPixel s.colorDepth buf n (readBack s buf n)) n = readBack s buf n := by
  rcases hd with hd | hd | hd
  · rw [hd] at ho
    have h0 := getD_lt buf hb n
    have hl : n < buf.length := by omega
    simp only [readBack, putPixel, hs, hd]
    simp only [List.getD_eq_getElem?_getD, List.getElem?_set, hl, if_true, Option.getD_some]
    exact Nat.mod_eq_of_lt (by simpa [List.getD_eq_getElem?_getD] using h0)
  · rw [hd] at ho
    have h0 := getD_lt buf hb (n * 2)
    have h1 := getD_lt buf hb (n * 2 + 1)
    have hl0 : n * 2 < buf.length := by omega
    have hl1 : n * 2 + 1 < buf.length := by omega
    simp only [readBack, putPixel, hs, hd]
    generalize buf.getD (n * 2) 0 = hi at h0 ⊢
    generalize buf.getD (n * 2 + 1) 0 = lo at h1 ⊢
    simp [List.getElem?_set, hl0, hl1]
    omega
  · rw [hd] at ho
    have hl0 : n * 3 < buf.length := by omega
    have hl1 : n * 3 + 1 < buf.length := by omega
    have hl2 : n * 3 + 2 < buf.length := by omega
    simp only [readBack, putPixel, hs, hd]
    generalize buf.getD (n * 3) 0 = g
    generalize buf.getD (n * 3 + 1) 0 = r
    generalize buf.getD (n * 3 + 2) 0 = b
    simp [List.getElem?_set, hl0, hl1, hl2]
    omega

theorem frameBytes_congr (s s1 : LPD8806VD) (buf buf1 : List Nat)
    (hn : s1.numLEDs = s.numLEDs) (hl : s1.latchBytes = s.latchBytes)
    (h : ∀ i, i < s.numLEDs → pixelWire s1 buf1 i = pixelWire s buf i) :
    frameBytes s1 buf1 = frameBytes s buf := by
  unfold frameBytes
  rw [hn, hl]
  congr 1
  apply List.flatMap_congr
  intro i hi
  exact h i (List.mem_range.mp hi)

/-! ## Writing a pixel back -/

/-- C20: for depth 1, 2 or 3, every buffer content and every n below
`numLEDs`, after `setPixelColor(n, getPixelColor(n))` `show()` transmits the
same stream as before, and a second such write-back returns the same state,
so the buffer is unchanged. -/
theorem writeback_invisible (t : Target) (s : LPD8806VD) (buf : List Nat) (n : Nat)
    (hd : s.colorDepth = 1 ∨ s.colorDepth = 2 ∨ s.colorDepth = 3)
    (hp : s.pixels = some buf) (hb : ∀ x ∈ buf, x < 256)
    (hlen : s.numLEDs * s.colorDepth ≤ buf.length) (hsz : buf.length ≤ t.sizeMax)
    (hn : n < s.numLEDs) :
    ∃ v s1, getPixelColor t s n = some v ∧ setPixelColor t s n v = some s1 ∧
      (∃ ev, showFrame s = some ev ∧ showFrame s1 = some ev) ∧
      ∃ v1, getPixelColor t s1 n = some v1 ∧ setPixelColor t s1 n v1 = some s1 := by
  have ho := pixel_offset_lt s buf n hlen hn
  have hl1 : (putPixel s.colorDepth buf n (readBack s buf n)).length = buf.length :=
    putPixel_length _ _ _ _
  have hb1 := putPixel_bytes s.colorDepth buf n (readBack s buf n) hb
  refine ⟨readBack s buf n,
    { s with pixels := some (putPixel s.colorDepth buf n (readBack s buf n)) },
    getPixelColor_readBack t s buf n hd hp hb hlen hsz hn,
    setPixelColor_eq t s buf n _ hd hp hlen hsz hn, ?_, ?_⟩
  · refine ⟨_, showFrame_eq s buf hd hp hb hlen, ?_⟩
    rw [showFrame_eq { s with pixels := some (putPixel s.colorDepth buf n (readBack s buf n)) }
      (putPixel s.colorDepth buf n (readBack s buf n)) hd rfl hb1 (by rw [hl1]; exact hlen)]
    have hf : frameBytes
        { s with pixels := some (putPixel s.colorDepth buf n (readBack s buf n)) }
        (putPixel s.colorDepth buf n (readBack s buf n)) = frameBytes s buf := by
      apply frameBytes_congr _ _ _ _ rfl rfl
      intro i _
      by_cases hi : i = n
      · rw [hi]
        exact pixelWire_writeback s
          { s with pixels := some (putPixel s.colorDepth buf n (readBack s buf n)) } buf n hd rfl
          hb ho
      · unfold pixelWire
        rw [storedGRB_putPixel_ne s
          { s with pixels := some (putPixel s.colorDepth buf n (readBack s buf n)) } buf n _ i
          rfl hi]
    rw [hf]
    rfl
  · refine ⟨readBack s buf n, ?_, ?_⟩
    · rw [getPixelColor_readBack t
        { s with pixels := some (putPixel s.colorDepth buf n (readBack s buf n)) }
        (putPixel s.colorDepth buf n (readBack s buf n)) n hd rfl hb1
        (by rw [hl1]; exact hlen) (by rw [hl1]; exact hsz) hn,
        readBack_writeback s
          { s with pixels := some (putPixel s.colorDepth buf n (readBack s buf n)) } buf n hd rfl hb ho]
    · rw [setPixelColor_eq t
        { s with pixels := some (putPixel s.colorDepth buf n (readBack s buf n)) }
        (putPixel s.colorDepth buf n (readBack s buf n)) n (readBack s buf n) hd rfl
        (by rw [hl1]; exact hlen) (by rw [hl1]; exact hsz) hn]
      simp only [putPixel_idem]

/-- C20 at a concrete input: a depth 3 pixel whose stored bytes have the top
bit set: the write-back stores 0x40, 0x7F, 0x00 and the stream stays
0xC0, 0xFF, 0x80, 0x00. -/
theorem writeback_invisible_witness :
    getPixelColor Target.avr (fixture 3 1 1 (some [0xC0, 0xFF, 0x80])) 0 = some 0x407F00 ∧
    setPixelColor Target.avr (fixture 3 1 1 (some [0xC0, 0xFF, 0x80])) 0 0x407F00 =
      some (fixture 3 1 1 (some [0x40, 0x7F, 0x00])) ∧
    (showFrame (fixture 3 1 1 (some [0xC0, 0xFF, 0x80]))).map wireBytes =
      some [0xC0, 0xFF, 0x80, 0x00] ∧
    (showFrame (fixture 3 1 1 (some [0x40, 0x7F, 0x00]))).map wireBytes =
      some [0xC0, 0xFF, 0x80, 0x00] ∧
    ∃ v s1, getPixelColor Target.avr (fixture 3 1 1 (some [0xC0, 0xFF, 0x80])) 0 = some v ∧
      setPixelColor Target.avr (fixture 3 1 1 (some [0xC0, 0xFF, 0x80])) 0 v = some s1 ∧
      (∃ ev, showFrame (fixture 3 1 1 (some [0xC0, 0xFF, 0x80])) = some ev ∧
        showFrame s1 = some ev) ∧
      ∃ v1, getPixelColor Target.avr s1 0 = some v1 ∧
        setPixelColor Target.avr s1 0 v1 = some s1 :=
  ⟨by decide, by decide, by decide, by decide,
   writeback_invisible Target.avr (fixture 3 1 1 (some [0xC0, 0xFF, 0x80])) [0xC0, 0xFF, 0x80]
    0 (Or.inr (Or.inr rfl)) rfl (by decide) (by decide) (by decide) (by decide)⟩

/-! ## Widening a stored pixel: helper lemmas -/

theorem getters_Color8To16 (c8 : Nat) :
    getRed16 (Color8To16 c8) = getRed8 c8 ∧ getGreen16 (Color8To16 c8) = getGreen8 c8 ∧
    getBlue16 (Color8To16 c8) = getBlue8 c8 := by
  rw [Color8To16_eq, getRed16_eq, getGreen16_eq, getBlue16_eq, getRed8_eq, getGreen8_eq,
    getBlue8_eq]
  have hx : c8 / 32 % 8 < 8 := Nat.mod_lt _ (by norm_num)
  have hy : c8 / 4 % 8 < 8 := Nat.mod_lt _ (by norm_num)
  have hz : c8 % 4 < 4 := Nat.mod_lt _ (by norm_num)
  generalize c8 / 32 % 8 = x at hx ⊢
  generalize c8 / 4 % 8 = y at hy ⊢
  generalize c8 % 4 = z at hz ⊢
  refine ⟨?_, ?_, ?_⟩ <;> omega

/-- The wire bytes of pixel `n` after `setPixelColor(n, c)`, read off the
frame that `show()` then sends. -/
theorem wire_after_setPixelColor (t : Target) (s : LPD8806VD) (buf : List Nat) (n c : Nat)
    (hd : s.colorDepth = 1 ∨ s.colorDepth = 2 ∨ s.colorDepth = 3)
    (hp : s.pixels = some buf) (hb : ∀ x ∈ buf, x < 256)
    (hlen : s.numLEDs * s.colorDepth ≤ buf.length) (hsz : buf.length ≤ t.sizeMax)
    (hn : n < s.numLEDs) :
    ∃ s1 ev, setPixelColor t s n c = some s1 ∧ showFrame s1 = some ev ∧
      ∀ j, j < 3 → (wireBytes ev)[n * 3 + j]? =
        (pixelWire s (putPixel s.colorDepth buf n c) n)[j]? := by
  have hl1 : (putPixel s.colorDepth buf n c).length = buf.length := putPixel_length _ _ _ _
  refine ⟨_, _, setPixelColor_eq t s buf n c hd hp hlen hsz hn,
    showFrame_eq { s with pixels := some (putPixel s.colorDepth buf n c) }
      (putPixel s.colorDepth buf n c) hd rfl (putPixel_bytes _ _ _ _ hb)
      (by rw [hl1]; exact hlen), ?_⟩
  intro j hj
  rw [wireBytes_map_sendByte,
    frameBytes_pixel { s with pixels := some (putPixel s.colorDepth buf n c) }
      (putPixel s.colorDepth buf n c) n j hn hj]
  rfl

/-! ## Widening a stored pixel -/

/-- C22: for every 8-bit packed colour c8 the depth 2 getters of
`Color8To16(c8)` equal the depth 1 getters of c8, so a depth 2 strip whose
pixel n is set to `Color8To16(c8)` sends for that pixel the same three wire
bytes as a depth 1 strip whose pixel n is set to c8. -/
theorem widen_keeps_display (t : Target) (s1 s2 : LPD8806VD) (buf1 buf2 : List Nat)
    (n c8 : Nat) (hc : c8 < 256)
    (h1 : s1.colorDepth = 1) (h2 : s2.colorDepth = 2)
    (hp1 : s1.pixels = some buf1) (hp2 : s2.pixels = some buf2)
    (hb1 : ∀ x ∈ buf1, x < 256) (hb2 : ∀ x ∈ buf2, x < 256)
    (hlen1 : s1.numLEDs * s1.colorDepth ≤ buf1.length)
    (hlen2 : s2.numLEDs * s2.colorDepth ≤ buf2.length)
    (hsz1 : buf1.length ≤ t.sizeMax) (hsz2 : buf2.length ≤ t.sizeMax)
    (hn1 : n < s1.numLEDs) (hn2 : n < s2.numLEDs) :
    (getRed16 (Color8To16 c8) = getRed8 c8 ∧ getGreen16 (Color8To16 c8) = getGreen8 c8 ∧
      getBlue16 (Color8To16 c8) = getBlue8 c8) ∧
    ∃ a1 a2 ev1 ev2, setPixelColor t s1 n c8 = some a1 ∧
      setPixelColor t s2 n (Color8To16 c8) = some a2 ∧
      showFrame a1 = some ev1 ∧ showFrame a2 = some ev2 ∧
      (wireBytes ev1)[3 * n]? = some (getGreen8 c8 ||| 0x80) ∧
      (wireBytes ev1)[3 * n + 1]? = some (getRed8 c8 ||| 0x80) ∧
      (wireBytes ev1)[3 * n + 2]? = some (getBlue8 c8 ||| 0x80) ∧
      (wireBytes ev2)[3 * n]? = (wireBytes ev1)[3 * n]? ∧
      (wireBytes ev2)[3 * n + 1]? = (wireBytes ev1)[3 * n + 1]? ∧
      (wireBytes ev2)[3 * n + 2]? = (wireBytes ev1)[3 * n + 2]? := by
  obtain ⟨hr, hg, hbl⟩ := getters_Color8To16 c8
  refine ⟨⟨hr, hg, hbl⟩, ?_⟩
  obtain ⟨a1, ev1, ha1, he1, hw1⟩ :=
    wire_after_setPixelColor t s1 buf1 n c8 (Or.inl h1) hp1 hb1 hlen1 hsz1 hn1
  obtain ⟨a2, ev2, ha2, he2, hw2⟩ :=
    wire_after_setPixelColor t s2 buf2 n (Color8To16 c8) (Or.inr (Or.inl h2)) hp2 hb2 hlen2
      hsz2 hn2
  have ho1 := pixel_offset_lt s1 buf1 n hlen1 hn1
  have ho2 := pixel_offset_lt s2 buf2 n hlen2 hn2
  have hv : Color8To16 c8 < 32768 := by rw [Color8To16_eq]; omega
  have hv2 : Color8To16 c8 >>> 8 % 256 * 256 + Color8To16 c8 % 256 = Color8To16 c8 := by
    omega
  have p1 : pixelWire s1 (putPixel s1.colorDepth buf1 n c8) n =
      [getGreen8 c8 ||| 0x80, getRed8 c8 ||| 0x80, getBlue8 c8 ||| 0x80] := by
    unfold pixelWire
    rw [storedGRB_putPixel s1 s1 buf1 n c8 (Or.inl h1) rfl ho1]
    simp only [h1, Nat.mod_eq_of_lt hc]
  have p2 : pixelWire s2 (putPixel s2.colorDepth buf2 n (Color8To16 c8)) n =
      [getGreen8 c8 ||| 0x80, getRed8 c8 ||| 0x80, getBlue8 c8 ||| 0x80] := by
    unfold pixelWire
    rw [storedGRB_putPixel s2 s2 buf2 n (Color8To16 c8) (Or.inr (Or.inl h2)) rfl ho2]
    simp only [h2, hv2, hr, hg, hbl]
  have e0 := hw1 0 (by omega)
  have e1 := hw1 1 (by omega)
  have e2 := hw1 2 (by omega)
  have f0 := hw2 0 (by omega)
  have f1 := hw2 1 (by omega)
  have f2 := hw2 2 (by omega)
  rw [p1] at e0 e1 e2
  rw [p2] at f0 f1 f2
  rw [Nat.add_zero] at e0 f0
  refine ⟨a1, a2, ev1, ev2, ha1, ha2, he1, he2, ?_⟩
  rw [Nat.mul_comm 3 n, e0, e1, e2, f0, f1, f2]
  simp

/-- C22 at a concrete input: c8 = 0xE5 on a 1-LED strip; both strips send
0x90, 0xF0, 0xA0 for the pixel. -/
theorem widen_keeps_display_witness :
    Color8To16 0xE5 = 0x7088 ∧
    ((setPixelColor Target.avr (fixture 1 1 1 (some [0])) 0 0xE5).bind showFrame).map
      wireBytes = some [0x90, 0xF0, 0xA0, 0x00] ∧
    ((setPixelColor Target.avr (fixture 2 1 1 (some [0, 0])) 0 0x7088).bind showFrame).map
      wireBytes = some [0x90, 0xF0, 0xA0, 0x00] ∧
    (getRed16 (Color8To16 0xE5) = getRed8 0xE5 ∧
      getGreen16 (Color8To16 0xE5) = getGreen8 0xE5 ∧
      getBlue16 (Color8To16 0xE5) = getBlue8 0xE5) :=
  ⟨by decide, by decide, by decide,
   (widen_keeps_display Target.avr (fixture 1 1 1 (some [0])) (fixture 2 1 1 (some [0, 0]))
    [0] [0, 0] 0 0xE5 (by decide) rfl rfl rfl rfl (by decide) (by decide) (by decide)
    (by decide) (by decide) (by decide) (by decide) (by decide)).1⟩

/-! ## One pixel at a time: helper lemmas -/

/-- Outside the bytes of pixel `n`, `putPixel` keeps the buffer. -/
theorem putPixel_get_other (d : Nat) (buf : List Nat) (n c j : Nat)
    (hd : d = 1 ∨ d = 2 ∨ d = 3) (hj : j < n * d ∨ n * d + d ≤ j) :
    (putPixel d buf n c)[j]? = buf[j]? := by
  rcases hd with hd | hd | hd
  · subst hd
    have e0 : n ≠ j := by omega
    simp [putPixel, List.getElem?_set, e0]
  · subst hd
    have e0 : n * 2 ≠ j := by omega
    have e1 : n * 2 + 1 ≠ j := by omega
    simp [putPixel, List.getElem?_set, e0, e1]
  · subst hd
    have e0 : n * 3 ≠ j := by omega
    have e1 : n * 3 + 1 ≠ j := by omega
    have e2 : n * 3 + 2 ≠ j := by omega
    simp [putPixel, List.getElem?_set, e0, e1, e2]

/-- Byte `k` of pixel `n` after `putPixel` is byte `d - 1 - k` of the colour:
the low `d` bytes, most significant first. -/
theorem putPixel_get_own (d : Nat) (buf : List Nat) (n c k : Nat)
    (hd : d = 1 ∨ d = 2 ∨ d = 3) (ho : (n + 1) * d ≤ buf.length) (hk : k < d) :
    (putPixel d buf n c)[n * d + k]? = some ((c >>> (8 * (d - 1 - k))) % 256) := by
  rcases hd with hd | hd | hd
  · subst hd
    have h0 : n < buf.length := by omega
    have hk0 : k = 0 := by omega
    subst hk0
    simp [putPixel, List.getElem?_set, h0]
  · subst hd
    have h0 : n * 2 < buf.length := by omega
    have h1 : n * 2 + 1 < buf.length := by omega
    have hk0 : k = 0 ∨ k = 1 := by omega
    rcases hk0 with hk0 | hk0 <;> subst hk0 <;> simp [putPixel, List.getElem?_set, h0, h1]
  · subst hd
    have h0 : n * 3 < buf.length := by omega
    have h1 : n * 3 + 1 < buf.length := by omega
    have h2 : n * 3 + 2 < buf.length := by omega
    have hk0 : k = 0 ∨ k = 1 ∨ k = 2 := by omega
    rcases hk0 with hk0 | hk0 | hk0 <;> subst hk0 <;>
      simp [putPixel, List.getElem?_set, h0, h1, h2]

/-! ## One pixel at a time -/

/-- C21: for depth d in {1, 2, 3}, n below `numLEDs` and every colour c,
`setPixelColor(n, c)` changes only the buffer: it writes the d bytes at offsets
n*d .. n*d + d - 1, the low d bytes of c most significant first, and keeps
every other byte; so `getPixelColor(m)` and the bytes `show()` sends for pixel
m are as before for every m other than n. -/
theorem setPixelColor_one_pixel (t : Target) (s : LPD8806VD) (buf : List Nat) (n c : Nat)
    (hd : s.colorDepth = 1 ∨ s.colorDepth = 2 ∨ s.colorDepth = 3)
    (hp : s.pixels = some buf) (hb : ∀ x ∈ buf, x < 256)
    (hlen : s.numLEDs * s.colorDepth ≤ buf.length) (hsz : buf.length ≤ t.sizeMax)
    (hn : n < s.numLEDs) :
    ∃ buf1, setPixelColor t s n c = some { s with pixels := some buf1 } ∧
      buf1.length = buf.length ∧
      (∀ k, k < s.colorDepth →
        buf1[n * s.colorDepth + k]? = some ((c >>> (8 * (s.colorDepth - 1 - k))) % 256)) ∧
      (∀ j, j < n * s.colorDepth ∨ n * s.colorDepth + s.colorDepth ≤ j →
        buf1[j]? = buf[j]?) ∧
      (∀ m, m ≠ n →
        getPixelColor t { s with pixels := some buf1 } m = getPixelColor t s m) ∧
      ∃ ev ev1, showFrame s = some ev ∧
        showFrame { s with pixels := some buf1 } = some ev1 ∧
        ∀ m, m ≠ n → m < s.numLEDs → ∀ k, k < 3 →
          (wireBytes ev1)[3 * m + k]? = (wireBytes ev)[3 * m + k]? := by
  have ho := pixel_offset_lt s buf n hlen hn
  have hl1 : (putPixel s.colorDepth buf n c).length = buf.length := putPixel_length _ _ _ _
  have hb1 := putPixel_bytes s.colorDepth buf n c hb
  have hlen1 : s.numLEDs * s.colorDepth ≤ (putPixel s.colorDepth buf n c).length := by
    rw [hl1]; exact hlen
  have hsz1 : (putPixel s.colorDepth buf n c).length ≤ t.sizeMax := by
    rw [hl1]; exact hsz
  refine ⟨putPixel s.colorDepth buf n c, setPixelColor_eq t s buf n c hd hp hlen hsz hn, hl1,
    fun k hk => putPixel_get_own _ buf n c k hd ho hk,
    fun j hj => putPixel_get_other _ buf n c j hd hj, ?_, ?_⟩
  · intro m hm
    by_cases hlt : m < s.numLEDs
    · rw [getPixelColor_eq t
        { s with pixels := some (putPixel s.colorDepth buf n c) }
        (putPixel s.colorDepth buf n c) m hd rfl hb1 hlen1 hsz1 hlt,
        getPixelColor_eq t s buf m hd hp hb hlen hsz hlt,
        storedGRB_putPixel_ne s
          { s with pixels := some (putPixel s.colorDepth buf n c) } buf n c m rfl hm]
      rfl
    · simp [getPixelColor, hlt]
  · refine ⟨_, _, showFrame_eq s buf hd hp hb hlen,
      showFrame_eq { s with pixels := some (putPixel s.colorDepth buf n c) }
        (putPixel s.colorDepth buf n c) hd rfl hb1 hlen1, ?_⟩
    intro m hm hlt k hk
    rw [wireBytes_map_sendByte, wireBytes_map_sendByte, Nat.mul_comm 3 m,
      frameBytes_pixel { s with pixels := some (putPixel s.colorDepth buf n c) }
        (putPixel s.colorDepth buf n c) m k hlt hk,
      frameBytes_pixel s buf m k hlt hk]
    unfold pixelWire
    rw [storedGRB_putPixel_ne s
      { s with pixels := some (putPixel s.colorDepth buf n c) } buf n c m rfl hm]
    rfl

/-- C21 at a concrete input: pixel 1 of a 3-LED strip at depth 2 is set to
0x12345678; only bytes 2 and 3 change, to 0x56 and 0x78. -/
theorem setPixelColor_one_pixel_witness :
    setPixelColor Target.avr (fixture 2 3 1 (some [1, 2, 3, 4, 5, 6])) 1 0x12345678 =
      some (fixture 2 3 1 (some [1, 2, 0x56, 0x78, 5, 6])) ∧
    getPixelColor Target.avr (fixture 2 3 1 (some [1, 2, 0x56, 0x78, 5, 6])) 2 =
      getPixelColor Target.avr (fixture 2 3 1 (some [1, 2, 3, 4, 5, 6])) 2 ∧
    ∃ buf1, setPixelColor Target.avr (fixture 2 3 1 (some [1, 2, 3, 4, 5, 6])) 1 0x12345678 =
        some { fixture 2 3 1 (some [1, 2, 3, 4, 5, 6]) with pixels := some buf1 } ∧
      buf1.length = [1, 2, 3, 4, 5, 6].length ∧
      (∀ k, k < 2 → buf1[1 * 2 + k]? = some ((0x12345678 >>> (8 * (2 - 1 - k))) % 256)) ∧
      (∀ j, j < 1 * 2 ∨ 1 * 2 + 2 ≤ j → buf1[j]? = [1, 2, 3, 4, 5, 6][j]?) ∧
      (∀ m, m ≠ 1 →
        getPixelColor Target.avr
            { fixture 2 3 1 (some [1, 2, 3, 4, 5, 6]) with pixels := some buf1 } m =
          getPixelColor Target.avr (fixture 2 3 1 (some [1, 2, 3, 4, 5, 6])) m) ∧
      ∃ ev ev1, showFrame (fixture 2 3 1 (some [1, 2, 3, 4, 5, 6])) = some ev ∧
        showFrame { fixture 2 3 1 (some [1, 2, 3, 4, 5, 6]) with pixels := some buf1 } =
          some ev1 ∧
        ∀ m, m ≠ 1 → m < 3 → ∀ k, k < 3 →
          (wireBytes ev1)[3 * m + k]? = (wireBytes ev)[3 * m + k]? :=
  ⟨by decide, by decide,
   setPixelColor_one_pixel Target.avr (fixture 2 3 1 (some [1, 2, 3, 4, 5, 6]))
    [1, 2, 3, 4, 5, 6] 1 0x12345678 (Or.inr (Or.inl rfl)) rfl (by decide) (by decide)
    (by decide) (by decide)⟩

end LPD8806VD
